import Mathlib

/-!
Shallow embedding of the PocketCare data layer.

Sources embedded here:
  * `src/types/index.ts` — the record types (`Reminder`, `Appointment`,
    `Medication`, `WeeklyStats`).
  * `src/utils/index.ts` — `generateId`, `getWeekBounds`, `addMinutes`,
    `formatTime` (the `Intl`-based en-US 12-hour clock is reproduced
    arithmetically).
  * `src/hooks/useIndexDB.ts` — the Data Controller: the IndexedDB adapter
    (`add`/`put`/`delete` per collection) and the exposed mutation operations
    (`addReminder`, `updateReminder`, `deleteReminder`, `addAppointment`,
    `updateAppointment`, `deleteAppointment`, `addMedication`,
    `updateMedication`, `deleteMedication`) plus `getWeeklyStats`.
  * `src/components/Appointments.tsx` — the appointment handlers
    (`markAppointmentComplete`, `markAppointmentMissed`,
    `toggleChecklistItem`).
  * `src/components/NotificationModal.tsx` — the confirmation message shown
    after a reminder action.

Modelling decisions, stated once:
  * JavaScript `Date` values are integers of milliseconds (plain `Int`).
    Local time is modelled as a fixed-offset clock, so `setDate(d+1)` is
    `+ msPerDay` and `setHours` rewrites the time-of-day; the Unix epoch day
    is a Thursday, giving `getDay`.  Daylight-saving discontinuities are not
    modelled.
  * `Date.now()` / `Math.random()` are environment inputs: the environment
    supplies a stream of timestamps and of random suffixes, indexed by the
    number of `generateId` calls made so far.
  * IndexedDB requests may fail (quota, storage unavailable); the environment
    supplies a failure oracle indexed by the number of store requests made so
    far.  `store.add` additionally fails on a duplicate key (ConstraintError,
    since every object store is keyed on `id`); `store.put` upserts;
    `store.delete` succeeds on an absent key.
  * `await p; f()` becomes: run the store request; on error return the error
    (the JS exception propagates), on success continue with `f`.  Execution
    is sequential; `new Date()` calls inside one operation all read the same
    `now` parameter.
  * `Number` applied to a non-numeric time string yields `NaN` in JS; the
    model yields `0`.  No claim distinguishes the two, as every claim about
    time strings factors through the same parse on both sides.
-/

/-! ## Time model -/

def msPerDay : Int := 86400000

/-- The local calendar day holding instant `t` (days since the epoch day). -/
def localDay (t : Int) : Int := t / msPerDay

/-- Inteconds elapsed since local midnight at instant `t`. -/
def msOfDay (t : Int) : Int := t % msPerDay

/-- JS `Date.prototype.getDay`: 0 = Sunday … 6 = Saturday.  The Unix epoch
day (1970-01-01) was a Thursday, hence the offset 4. -/
def getDayOfWeek (t : Int) : Int := (localDay t + 4) % 7

/-- JS `d.setHours(h, m, s, ms)` on instant `t`: keep the local day, rewrite
the time of day.  Out-of-range components roll over, as in JS. -/
def setHoursMs (t : Int) (h m sec milli : Int) : Int :=
  localDay t * msPerDay + h * 3600000 + m * 60000 + sec * 1000 + milli

/-- JS `d.setDate(d.getDate() + n)`: under the fixed-offset clock this is a
shift by whole days. -/
def addDays (t : Int) (n : Int) : Int := t + n * msPerDay

/-! ## Record types (src/types/index.ts) -/

inductive ReminderType where
  | medication
  | appointment
deriving DecidableEq, Repr

inductive ReminderStatus where
  | pending
  | taken
  | snoozed
  | skipped
  | missed
deriving DecidableEq, Repr

structure Reminder where
  id : String
  type : ReminderType
  title : String
  description : Option String
  scheduledTime : Int
  status : ReminderStatus
  snoozedUntil : Option Int
  snoozeCount : Nat
  relatedId : Option String
  createdAt : Int
deriving DecidableEq, Repr

inductive AppointmentStatus where
  | upcoming
  | completed
  | missed
deriving DecidableEq, Repr

structure ChecklistItem where
  id : String
  text : String
  completed : Bool
deriving DecidableEq, Repr

structure Appointment where
  id : String
  title : String
  doctor : Option String
  location : String
  dateTime : Int
  notes : Option String
  checklist : List ChecklistItem
  status : AppointmentStatus
  createdAt : Int
deriving DecidableEq, Repr

structure Medication where
  id : String
  name : String
  dosage : String
  frequency : String
  times : List String
  notes : Option String
  createdAt : Int
deriving DecidableEq, Repr

structure WeeklyStats where
  weekStartDate : Int
  weekEndDate : Int
  medicationsTaken : Nat
  medicationsMissed : Nat
  medicationsSnoozed : Nat
  appointmentsAttended : Nat
  appointmentsMissed : Nat
  totalReminders : Nat
deriving DecidableEq, Repr

/-! ## Utilities (src/utils/index.ts) -/

/-- `generateId`: `` `${Date.now()}-${Math.random().toString(36).substring(2, 11)}` ``,
applied to the observed timestamp and random suffix. -/
def generateId (timestamp : Nat) (rand : String) : String :=
  toString timestamp ++ "-" ++ rand

/-- `getWeekBounds`: start = current date shifted back by `getDay()` days, at
00:00:00.000; end = start + 6 days, at 23:59:59.999. -/
def getWeekBounds (date : Int) : Int × Int :=
  let dayOfWeek := getDayOfWeek date
  let start := setHoursMs (addDays date (-dayOfWeek)) 0 0 0 0
  let stop := setHoursMs (addDays start 6) 23 59 59 999
  (start, stop)

/-- `addMinutes`: `new Date(date.getTime() + minutes * 60000)`. -/
def addMinutes (date : Int) (minutes : Int) : Int :=
  date + minutes * 60000

/-- Left-pad a minute count to two digits (`minute: '2-digit'`). -/
def twoDigit (n : Int) : String :=
  if n < 10 then "0" ++ toString n else toString n

/-- `formatTime`: `Intl.DateTimeFormat('en-US', { hour: 'numeric',
minute: '2-digit', hour12: true })`, reproduced arithmetically. -/
def formatTime (t : Int) : String :=
  let md := msOfDay t
  let h24 := md / 3600000
  let minute := (md / 60000) % 60
  let h12 := if h24 % 12 = 0 then (12 : Int) else h24 % 12
  let suffix := if h24 < 12 then "AM" else "PM"
  toString h12 ++ ":" ++ twoDigit minute ++ " " ++ suffix

/-- `time.split(':').map(Number)` destructured as `[hours, minutes]`. -/
def parseTime (s : String) : Int × Int :=
  match (s.splitOn ":").map (fun x => ((x.toNat?).getD 0 : Int)) with
  | [] => (0, 0)
  | [h] => (h, 0)
  | h :: m :: _ => (h, m)

/-! ## Environment and state -/

/-- Environment inputs consumed by the controller: the timestamp and random
suffix observed by each successive `generateId` call, and whether each
successive IndexedDB request fails. -/
structure Env where
  timestamps : Nat → Nat
  rands : Nat → String
  failures : Nat → Bool

/-- The id returned by the `n`-th `generateId` call under `env`. -/
def idAt (env : Env) (n : Nat) : String :=
  generateId (env.timestamps n) (env.rands n)

/-- One database image: the three collections. -/
structure DB where
  reminders : List Reminder
  appointments : List Appointment
  medications : List Medication

def DB.empty : DB := ⟨[], [], []⟩

/-- Controller state: the persisted store, the in-memory React mirrors
(`reminders` / `appointments` / `medications` state variables), the
environment, and how many `generateId` calls and store requests have
happened. -/
structure St where
  store : DB
  mem : DB
  env : Env
  idCalls : Nat
  storeCalls : Nat

/-- Perform one `generateId` call. -/
def nextId (s : St) : String × St :=
  (idAt s.env s.idCalls, { s with idCalls := s.idCalls + 1 })

/-- Consume one entry of the failure oracle. -/
def stepFail (s : St) : Bool × St :=
  (s.env.failures s.storeCalls, { s with storeCalls := s.storeCalls + 1 })

/-! ## IndexedDB adapter (`add` / `put` / `delete` per collection).
`add` rejects on a duplicate primary key; `put` upserts by key; `delete`
succeeds whether or not the key is present.  Every request may also fail
through the failure oracle. -/

def storeAddReminder (r : Reminder) (s : St) : Except Unit Unit × St :=
  let (f, s) := stepFail s
  if f then (.error (), s)
  else if s.store.reminders.any (fun x => x.id = r.id) then (.error (), s)
  else (.ok (), { s with store := { s.store with reminders := s.store.reminders ++ [r] } })

def storePutReminder (r : Reminder) (s : St) : Except Unit Unit × St :=
  let (f, s) := stepFail s
  if f then (.error (), s)
  else if s.store.reminders.any (fun x => x.id = r.id) then
    (.ok (), { s with store := { s.store with
      reminders := s.store.reminders.map (fun x => if x.id = r.id then r else x) } })
  else (.ok (), { s with store := { s.store with reminders := s.store.reminders ++ [r] } })

def storeRemoveReminder (id : String) (s : St) : Except Unit Unit × St :=
  let (f, s) := stepFail s
  if f then (.error (), s)
  else (.ok (), { s with store := { s.store with
    reminders := s.store.reminders.filter (fun x => x.id ≠ id) } })

def storeAddAppointment (a : Appointment) (s : St) : Except Unit Unit × St :=
  let (f, s) := stepFail s
  if f then (.error (), s)
  else if s.store.appointments.any (fun x => x.id = a.id) then (.error (), s)
  else (.ok (), { s with store := { s.store with appointments := s.store.appointments ++ [a] } })

def storePutAppointment (a : Appointment) (s : St) : Except Unit Unit × St :=
  let (f, s) := stepFail s
  if f then (.error (), s)
  else if s.store.appointments.any (fun x => x.id = a.id) then
    (.ok (), { s with store := { s.store with
      appointments := s.store.appointments.map (fun x => if x.id = a.id then a else x) } })
  else (.ok (), { s with store := { s.store with appointments := s.store.appointments ++ [a] } })

def storeRemoveAppointment (id : String) (s : St) : Except Unit Unit × St :=
  let (f, s) := stepFail s
  if f then (.error (), s)
  else (.ok (), { s with store := { s.store with
    appointments := s.store.appointments.filter (fun x => x.id ≠ id) } })

def storeAddMedication (m : Medication) (s : St) : Except Unit Unit × St :=
  let (f, s) := stepFail s
  if f then (.error (), s)
  else if s.store.medications.any (fun x => x.id = m.id) then (.error (), s)
  else (.ok (), { s with store := { s.store with medications := s.store.medications ++ [m] } })

def storePutMedication (m : Medication) (s : St) : Except Unit Unit × St :=
  let (f, s) := stepFail s
  if f then (.error (), s)
  else if s.store.medications.any (fun x => x.id = m.id) then
    (.ok (), { s with store := { s.store with
      medications := s.store.medications.map (fun x => if x.id = m.id then m else x) } })
  else (.ok (), { s with store := { s.store with medications := s.store.medications ++ [m] } })

def storeRemoveMedication (id : String) (s : St) : Except Unit Unit × St :=
  let (f, s) := stepFail s
  if f then (.error (), s)
  else (.ok (), { s with store := { s.store with
    medications := s.store.medications.filter (fun x => x.id ≠ id) } })

/-! ## Data Controller operations (src/hooks/useIndexDB.ts) -/

/-- Caller-supplied fields of `addReminder`
(`Omit<Reminder, 'id' | 'createdAt' | 'snoozeCount' | 'status'>`). -/
structure ReminderInput where
  type : ReminderType
  title : String
  description : Option String
  scheduledTime : Int
  snoozedUntil : Option Int
  relatedId : Option String
deriving DecidableEq, Repr

/-- Caller-supplied fields of `addAppointment`
(`Omit<Appointment, 'id' | 'createdAt' | 'status'>`). -/
structure AppointmentInput where
  title : String
  doctor : Option String
  location : String
  dateTime : Int
  notes : Option String
  checklist : List ChecklistItem
deriving DecidableEq, Repr

/-- Caller-supplied fields of `addMedication`
(`Omit<Medication, 'id' | 'createdAt'>`). -/
structure MedicationInput where
  name : String
  dosage : String
  frequency : String
  times : List String
  notes : Option String
deriving DecidableEq, Repr

/-- The record built inside `addReminder` from its input, the generated id
and the current time. -/
def mkReminder (inp : ReminderInput) (id : String) (now : Int) : Reminder :=
  { id := id
    type := inp.type
    title := inp.title
    description := inp.description
    scheduledTime := inp.scheduledTime
    status := .pending
    snoozedUntil := inp.snoozedUntil
    snoozeCount := 0
    relatedId := inp.relatedId
    createdAt := now }

/-- `addReminder`: build the record with a fresh id, `status: 'pending'`,
`snoozeCount: 0`; `await add('reminders', newReminder)`; then append to the
mirror and return the record. -/
def addReminder (inp : ReminderInput) (now : Int) (s : St) :
    Except Unit Reminder × St :=
  let (id, s) := nextId s
  let r := mkReminder inp id now
  match storeAddReminder r s with
  | (.error _, s) => (.error (), s)
  | (.ok _, s) =>
      (.ok r, { s with mem := { s.mem with reminders := s.mem.reminders ++ [r] } })

/-- `updateReminder`: `await update('reminders', reminder)`; then replace the
matching entry in the mirror. -/
def updateReminder (r : Reminder) (s : St) : Except Unit Unit × St :=
  match storePutReminder r s with
  | (.error _, s) => (.error (), s)
  | (.ok _, s) =>
      (.ok (), { s with mem := { s.mem with
        reminders := s.mem.reminders.map (fun x => if x.id = r.id then r else x) } })

/-- `deleteReminder`: `await remove('reminders', id)`; then drop the entry
from the mirror. -/
def deleteReminder (id : String) (s : St) : Except Unit Unit × St :=
  match storeRemoveReminder id s with
  | (.error _, s) => (.error (), s)
  | (.ok _, s) =>
      (.ok (), { s with mem := { s.mem with
        reminders := s.mem.reminders.filter (fun x => x.id ≠ id) } })

/-- The description string of the derived appointment reminder:
`` `${appointment.location}${appointment.doctor ? ` with ${appointment.doctor}` : ''}` ``
(an empty doctor string is falsy in JS). -/
def appointmentReminderDescription (inp : AppointmentInput) : String :=
  inp.location ++
    (match inp.doctor with
     | some d => if d = "" then "" else " with " ++ d
     | none => "")

/-- The `addReminder` argument built inside `addAppointment`: kind
`appointment`, scheduled one hour before the appointment
(`new Date(dateTime).getTime() - 60 * 60 * 1000`). -/
def appointmentReminderInput (inp : AppointmentInput) (apptId : String) : ReminderInput :=
  { type := .appointment
    title := "Appointment: " ++ inp.title
    description := some (appointmentReminderDescription inp)
    scheduledTime := inp.dateTime - 60 * 60 * 1000
    snoozedUntil := none
    relatedId := some apptId }

/-- The record built inside `addAppointment` from its input, the generated
id and the current time (`status: 'upcoming'`). -/
def mkAppointment (inp : AppointmentInput) (id : String) (now : Int) : Appointment :=
  { id := id
    title := inp.title
    doctor := inp.doctor
    location := inp.location
    dateTime := inp.dateTime
    notes := inp.notes
    checklist := inp.checklist
    status := .upcoming
    createdAt := now }

/-- `addAppointment`: build the appointment with a fresh id and
`status: 'upcoming'`; persist it; append to the mirror; then create one
reminder 60 minutes before `dateTime`; return the appointment. -/
def addAppointment (inp : AppointmentInput) (now : Int) (s : St) :
    Except Unit Appointment × St :=
  let (id, s) := nextId s
  let a := mkAppointment inp id now
  match storeAddAppointment a s with
  | (.error _, s) => (.error (), s)
  | (.ok _, s) =>
      let s := { s with mem := { s.mem with appointments := s.mem.appointments ++ [a] } }
      match addReminder (appointmentReminderInput inp a.id) now s with
      | (.error _, s) => (.error (), s)
      | (.ok _, s) => (.ok a, s)

/-- `updateAppointment`: `await update('appointments', appointment)`; then
replace the matching entry in the mirror. -/
def updateAppointment (a : Appointment) (s : St) : Except Unit Unit × St :=
  match storePutAppointment a s with
  | (.error _, s) => (.error (), s)
  | (.ok _, s) =>
      (.ok (), { s with mem := { s.mem with
        appointments := s.mem.appointments.map (fun x => if x.id = a.id then a else x) } })

/-- The cascade loop `for (const reminder of relatedReminders) await
deleteReminder(reminder.id)`. -/
def deleteRemindersLoop : List Reminder → St → Except Unit Unit × St
  | [], s => (.ok (), s)
  | r :: rest, s =>
      match deleteReminder r.id s with
      | (.error _, s) => (.error (), s)
      | (.ok _, s) => deleteRemindersLoop rest s

/-- `deleteAppointment`: remove the appointment from store and mirror, then
delete every reminder whose `relatedId` equals the appointment id (the
related list is read from the mirror before the loop). -/
def deleteAppointment (id : String) (s : St) : Except Unit Unit × St :=
  match storeRemoveAppointment id s with
  | (.error _, s) => (.error (), s)
  | (.ok _, s) =>
      let s := { s with mem := { s.mem with
        appointments := s.mem.appointments.filter (fun x => x.id ≠ id) } }
      let relatedReminders := s.mem.reminders.filter (fun r => r.relatedId = some id)
      deleteRemindersLoop relatedReminders s

/-- The scheduled time of a medication reminder: `new Date()` with
`setHours(hours, minutes, 0, 0)`, pushed to the next day when already past
(`if (scheduledTime < new Date()) scheduledTime.setDate(getDate() + 1)`). -/
def medicationScheduledTime (now : Int) (time : String) : Int :=
  let hm := parseTime time
  let t := setHoursMs now hm.1 hm.2 0 0
  if t < now then addDays t 1 else t

/-- The `addReminder` argument built inside the `addMedication` loop for one
time string. -/
def medicationReminderInput (med : Medication) (now : Int) (time : String) :
    ReminderInput :=
  { type := .medication
    title := "Take " ++ med.name
    description := some (med.dosage ++ " - " ++ med.frequency)
    scheduledTime := medicationScheduledTime now time
    snoozedUntil := none
    relatedId := some med.id }

/-- The `for (const time of medication.times)` loop of `addMedication`:
one `addReminder` per time string. -/
def addMedicationRemindersLoop (med : Medication) (now : Int) :
    List String → St → Except Unit Unit × St
  | [], s => (.ok (), s)
  | time :: rest, s =>
      match addReminder (medicationReminderInput med now time) now s with
      | (.error _, s) => (.error (), s)
      | (.ok _, s) => addMedicationRemindersLoop med now rest s

/-- The record built inside `addMedication` from its input, the generated id
and the current time. -/
def mkMedication (inp : MedicationInput) (id : String) (now : Int) : Medication :=
  { id := id
    name := inp.name
    dosage := inp.dosage
    frequency := inp.frequency
    times := inp.times
    notes := inp.notes
    createdAt := now }

/-- `addMedication`: build the medication with a fresh id; persist it; append
to the mirror; then create one reminder per configured time; return the
medication. -/
def addMedication (inp : MedicationInput) (now : Int) (s : St) :
    Except Unit Medication × St :=
  let (id, s) := nextId s
  let m := mkMedication inp id now
  match storeAddMedication m s with
  | (.error _, s) => (.error (), s)
  | (.ok _, s) =>
      let s := { s with mem := { s.mem with medications := s.mem.medications ++ [m] } }
      match addMedicationRemindersLoop m now inp.times s with
      | (.error _, s) => (.error (), s)
      | (.ok _, s) => (.ok m, s)

/-- `updateMedication`: `await update('medications', medication)`; then
replace the matching entry in the mirror. -/
def updateMedication (m : Medication) (s : St) : Except Unit Unit × St :=
  match storePutMedication m s with
  | (.error _, s) => (.error (), s)
  | (.ok _, s) =>
      (.ok (), { s with mem := { s.mem with
        medications := s.mem.medications.map (fun x => if x.id = m.id then m else x) } })

/-- `deleteMedication`: remove the medication from store and mirror, then
delete every reminder whose `relatedId` equals the medication id. -/
def deleteMedication (id : String) (s : St) : Except Unit Unit × St :=
  match storeRemoveMedication id s with
  | (.error _, s) => (.error (), s)
  | (.ok _, s) =>
      let s := { s with mem := { s.mem with
        medications := s.mem.medications.filter (fun x => x.id ≠ id) } }
      let relatedReminders := s.mem.reminders.filter (fun r => r.relatedId = some id)
      deleteRemindersLoop relatedReminders s

/-! ## getWeeklyStats (src/hooks/useIndexDB.ts) over the mirror list -/

/-- `getWeeklyStats`: filter the reminders to the current week
(`scheduled >= start && scheduled <= end`), split by type, and count by
status exactly as the hook does. -/
def getWeeklyStats (reminders : List Reminder) (now : Int) : WeeklyStats :=
  let bounds := getWeekBounds now
  let weekReminders := reminders.filter
    (fun r => decide (bounds.1 ≤ r.scheduledTime) && decide (r.scheduledTime ≤ bounds.2))
  let medicationReminders := weekReminders.filter (fun r => r.type = .medication)
  let appointmentReminders := weekReminders.filter (fun r => r.type = .appointment)
  { weekStartDate := bounds.1
    weekEndDate := bounds.2
    medicationsTaken := (medicationReminders.filter (fun r => r.status = .taken)).length
    medicationsMissed := (medicationReminders.filter
      (fun r => r.status = .missed ∨ r.status = .skipped)).length
    medicationsSnoozed := (medicationReminders.filter
      (fun r => r.status = .snoozed ∨ r.snoozeCount > 0)).length
    appointmentsAttended := (appointmentReminders.filter (fun r => r.status = .taken)).length
    appointmentsMissed := (appointmentReminders.filter
      (fun r => r.status = .missed ∨ r.status = .skipped)).length
    totalReminders := weekReminders.length }

/-! ## Appointment component handlers (src/components/Appointments.tsx) -/

/-- `markAppointmentComplete`: `onUpdateAppointment({ ...appointment,
status: 'completed' })`. -/
def markAppointmentComplete (a : Appointment) (s : St) : Except Unit Unit × St :=
  updateAppointment { a with status := .completed } s

/-- `markAppointmentMissed`: `onUpdateAppointment({ ...appointment,
status: 'missed' })`. -/
def markAppointmentMissed (a : Appointment) (s : St) : Except Unit Unit × St :=
  updateAppointment { a with status := .missed } s

/-- `toggleChecklistItem`: flip the `completed` flag of the matching
checklist item and update the appointment. -/
def toggleChecklistItem (a : Appointment) (itemId : String) (s : St) :
    Except Unit Unit × St :=
  let updatedChecklist := a.checklist.map
    (fun item => if item.id = itemId then { item with completed := !item.completed } else item)
  updateAppointment { a with checklist := updatedChecklist } s

/-! ## Reminder actions (src/types/index.ts, src/components/NotificationModal.tsx) -/

inductive ReminderAction where
  | take
  | snooze
  | skip
deriving DecidableEq, Repr

/-- `getConfirmationMessage` from the overlay component, for a selected
action (`''` for none is not modelled; the caller always has one). -/
def getConfirmationMessage (action : ReminderAction) (rType : ReminderType)
    (now : Int) : String :=
  match action with
  | .take =>
      match rType with
      | .medication => "✅ Medication marked as taken!"
      | .appointment => "✅ Appointment confirmed!"
  | .snooze =>
      "⏰ Snoozed! I\x27ll remind you again at " ++ formatTime (addMinutes now 15)
  | .skip => "⏭️ Reminder skipped for now."

/-- Modelled from the spec: no file under `src/` implements the `onAction`
callback of the overlay component (the modal is never mounted and
`updateReminder` is never wired to a view), so the handler that applies the
"snooze" action is missing from the repository.  Per the spec it sets the
reminder\x27s status to "snoozed", increments the snooze counter, sets
snoozed-until to now + 15 minutes, and persists through `updateReminder`. -/
def applySnoozeAction (r : Reminder) (now : Int) (s : St) :
    Except Unit Unit × St :=
  updateReminder
    { r with
      status := .snoozed
      snoozeCount := r.snoozeCount + 1
      snoozedUntil := some (addMinutes now 15) } s

/-! ## The exposed mutation operations, as one step type -/

inductive Op where
  | opAddReminder (inp : ReminderInput)
  | opUpdateReminder (r : Reminder)
  | opDeleteReminder (id : String)
  | opAddAppointment (inp : AppointmentInput)
  | opUpdateAppointment (a : Appointment)
  | opDeleteAppointment (id : String)
  | opAddMedication (inp : MedicationInput)
  | opUpdateMedication (m : Medication)
  | opDeleteMedication (id : String)

/-- Run one exposed mutation, discarding its return value. -/
def runOp : Op → Int → St → Except Unit Unit × St
  | .opAddReminder inp, now, s =>
      let out := addReminder inp now s
      (out.1.map (fun _ => ()), out.2)
  | .opUpdateReminder r, _, s => updateReminder r s
  | .opDeleteReminder id, _, s => deleteReminder id s
  | .opAddAppointment inp, now, s =>
      let out := addAppointment inp now s
      (out.1.map (fun _ => ()), out.2)
  | .opUpdateAppointment a, _, s => updateAppointment a s
  | .opDeleteAppointment id, _, s => deleteAppointment id s
  | .opAddMedication inp, now, s =>
      let out := addMedication inp now s
      (out.1.map (fun _ => ()), out.2)
  | .opUpdateMedication m, _, s => updateMedication m s
  | .opDeleteMedication id, _, s => deleteMedication id s

/-- The operations that perform exactly one store write (no cascade, no
derived reminders). -/
def Op.singleWrite : Op → Bool
  | .opAddReminder _ => true
  | .opUpdateReminder _ => true
  | .opDeleteReminder _ => true
  | .opUpdateAppointment _ => true
  | .opUpdateMedication _ => true
  | _ => false

/-- The reminder the demo seeder writes directly to the store with status
`'taken'` (`await add<Reminder>('reminders', {...})`). -/
def seedTakenReminder (id : String) (yesterdayMorning : Int) : Reminder :=
  { id := id
    type := .medication
    title := "Take Lisinopril"
    description := some "10mg - Once daily"
    scheduledTime := yesterdayMorning
    status := .taken
    snoozedUntil := none
    snoozeCount := 0
    relatedId := none
    createdAt := yesterdayMorning }

/-- The reminder the demo seeder writes directly to the store with status
`'snoozed'` and `snoozeCount: 1`. -/
def seedSnoozedReminder (id : String) (yesterdayEvening : Int) : Reminder :=
  { id := id
    type := .medication
    title := "Take Metformin"
    description := some "500mg - Twice daily"
    scheduledTime := yesterdayEvening
    status := .snoozed
    snoozedUntil := none
    snoozeCount := 1
    relatedId := none
    createdAt := yesterdayEvening }

/-- All states the controller can reach: the fresh install, one exposed
mutation, one of the seeder\x27s two direct store writes, or a reload of the
mirrors from the store (the initial `getAll` load and the seeder\x27s final
reload; key-ordering of `getAll` is not modelled, and no claim observes
list order across a reload). -/
inductive Reachable : St → Prop where
  | init (env : Env) : Reachable ⟨DB.empty, DB.empty, env, 0, 0⟩
  | step {s : St} (op : Op) (now : Int) :
      Reachable s → Reachable (runOp op now s).2
  | seedWrite {s : St} (id : String) (t : Int) :
      Reachable s → Reachable (storeAddReminder (seedTakenReminder id t) s).2
  | seedWriteSnoozed {s : St} (id : String) (t : Int) :
      Reachable s → Reachable (storeAddReminder (seedSnoozedReminder id t) s).2
  | reload {s : St} : Reachable s → Reachable { s with mem := s.store }

/-! ## The handlers the view components actually invoke.
Gathered from `Reminders.tsx`, `Appointments.tsx`, `Home.tsx` and `App.tsx`:
the forms call `addMedication` / `addAppointment`; the delete buttons call
`deleteMedication` / `deleteReminder` / `deleteAppointment`; the appointment
card calls `toggleChecklistItem`, `markAppointmentComplete`,
`markAppointmentMissed`; the home page triggers the seeder.  No component
invokes `updateReminder` or `updateMedication`. -/

inductive ComponentOp where
  | addMedicationForm (inp : MedicationInput)
  | addAppointmentForm (inp : AppointmentInput)
  | deleteMedicationButton (id : String)
  | deleteReminderButton (id : String)
  | deleteAppointmentButton (id : String)
  | toggleChecklist (a : Appointment) (itemId : String)
  | markComplete (a : Appointment)
  | markMissed (a : Appointment)
  | seedTakenWrite (id : String) (t : Int)
  | seedSnoozedWrite (id : String) (t : Int)
  | reloadMirrors

/-- Run one component-triggered step. -/
def runComponentOp : ComponentOp → Int → St → Except Unit Unit × St
  | .addMedicationForm inp, now, s =>
      let out := addMedication inp now s
      (out.1.map (fun _ => ()), out.2)
  | .addAppointmentForm inp, now, s =>
      let out := addAppointment inp now s
      (out.1.map (fun _ => ()), out.2)
  | .deleteMedicationButton id, _, s => deleteMedication id s
  | .deleteReminderButton id, _, s => deleteReminder id s
  | .deleteAppointmentButton id, _, s => deleteAppointment id s
  | .toggleChecklist a itemId, _, s => toggleChecklistItem a itemId s
  | .markComplete a, _, s => markAppointmentComplete a s
  | .markMissed a, _, s => markAppointmentMissed a s
  | .seedTakenWrite id t, _, s => storeAddReminder (seedTakenReminder id t) s
  | .seedSnoozedWrite id t, _, s => storeAddReminder (seedSnoozedReminder id t) s
  | .reloadMirrors, _, s => (.ok (), { s with mem := s.store })

/-! ## Spec-side definitions used only to state the claims -/

/-- Spec-side: the reminder falls inside the current week, both bounds
inclusive. -/
def inCurrentWeek (now : Int) (r : Reminder) : Prop :=
  (getWeekBounds now).1 ≤ r.scheduledTime ∧ r.scheduledTime ≤ (getWeekBounds now).2

instance (now : Int) (r : Reminder) : Decidable (inCurrentWeek now r) :=
  inferInstanceAs (Decidable (_ ∧ _))

/-- Spec-side: number of current-week reminders satisfying `p`. -/
def weeklyCount (reminders : List Reminder) (now : Int)
    (p : Reminder → Prop) [DecidablePred p] : Nat :=
  (reminders.filter (fun r => decide (inCurrentWeek now r ∧ p r))).length

theorem weekFilter_eq (reminders : List Reminder) (now : Int) :
    reminders.filter
      (fun r => decide ((getWeekBounds now).1 ≤ r.scheduledTime) &&
        decide (r.scheduledTime ≤ (getWeekBounds now).2))
      = reminders.filter (fun r => decide (inCurrentWeek now r)) := by
  apply List.filter_congr
  intro r _
  simp [inCurrentWeek]

/-- Helper: shape of the week bounds — start is a local midnight on a
Sunday, the end is exactly one millisecond before the next week's start,
and the current instant lies between them. -/
theorem weekBounds_shape (now : Int) :
    msOfDay (getWeekBounds now).1 = 0 ∧
    getDayOfWeek (getWeekBounds now).1 = 0 ∧
    (getWeekBounds now).2 = (getWeekBounds now).1 + 7 * msPerDay - 1 ∧
    (getWeekBounds now).1 ≤ now ∧ now ≤ (getWeekBounds now).2 := by
  simp [getWeekBounds, setHoursMs, addDays, localDay, msOfDay, getDayOfWeek, msPerDay]
  omega

theorem getWeeklyStats_weekReminders (reminders : List Reminder) (now : Int) :
    (getWeeklyStats reminders now).totalReminders
      = (reminders.filter (fun r => decide (inCurrentWeek now r))).length := by
  simp only [getWeeklyStats, weekFilter_eq]

/-- Helper: each statistic of `getWeeklyStats` is a single filtered count
over the whole list. -/
theorem getWeeklyStats_counts (reminders : List Reminder) (now : Int)
    (pt : ReminderType) (ps : Reminder → Prop) [DecidablePred ps] :
    ((reminders.filter
        (fun r => decide ((getWeekBounds now).1 ≤ r.scheduledTime) &&
          decide (r.scheduledTime ≤ (getWeekBounds now).2))).filter
        (fun r => decide (r.type = pt))).filter (fun r => decide (ps r))
      = reminders.filter (fun r => decide (inCurrentWeek now r ∧ r.type = pt ∧ ps r)) := by
  simp only [List.filter_filter]
  apply List.filter_congr
  intro r _
  simp [inCurrentWeek]
  ac_rfl

/-- Helper: the medication-taken statistic as one filtered count. -/
theorem medicationsTaken_eq (l : List Reminder) (now : Int) :
    (getWeeklyStats l now).medicationsTaken
      = weeklyCount l now (fun r => r.type = .medication ∧ r.status = .taken) := by
  show (((l.filter _).filter _).filter _).length = weeklyCount _ _ _
  rw [getWeeklyStats_counts]
  rfl

/-- Helper: the medication-missed statistic as one filtered count. -/
theorem medicationsMissed_eq (l : List Reminder) (now : Int) :
    (getWeeklyStats l now).medicationsMissed
      = weeklyCount l now
          (fun r => r.type = .medication ∧ (r.status = .missed ∨ r.status = .skipped)) := by
  show (((l.filter _).filter _).filter _).length = weeklyCount _ _ _
  rw [getWeeklyStats_counts]
  rfl

/-- Helper: the medication-snoozed statistic as one filtered count. -/
theorem medicationsSnoozed_eq (l : List Reminder) (now : Int) :
    (getWeeklyStats l now).medicationsSnoozed
      = weeklyCount l now
          (fun r => r.type = .medication ∧ (r.status = .snoozed ∨ 0 < r.snoozeCount)) := by
  show (((l.filter _).filter _).filter _).length = weeklyCount _ _ _
  rw [getWeeklyStats_counts]
  rfl

/-- Helper: the appointment-attended statistic as one filtered count. -/
theorem appointmentsAttended_eq (l : List Reminder) (now : Int) :
    (getWeeklyStats l now).appointmentsAttended
      = weeklyCount l now (fun r => r.type = .appointment ∧ r.status = .taken) := by
  show (((l.filter _).filter _).filter _).length = weeklyCount _ _ _
  rw [getWeeklyStats_counts]
  rfl

/-- Helper: the appointment-missed statistic as one filtered count. -/
theorem appointmentsMissed_eq (l : List Reminder) (now : Int) :
    (getWeeklyStats l now).appointmentsMissed
      = weeklyCount l now
          (fun r => r.type = .appointment ∧ (r.status = .missed ∨ r.status = .skipped)) := by
  show (((l.filter _).filter _).filter _).length = weeklyCount _ _ _
  rw [getWeeklyStats_counts]
  rfl

/-- Helper: the total-reminders statistic as one filtered count. -/
theorem totalReminders_eq (l : List Reminder) (now : Int) :
    (getWeeklyStats l now).totalReminders = weeklyCount l now (fun _ => True) := by
  show (l.filter _).length = weeklyCount _ _ _
  rw [weekFilter_eq]
  unfold weeklyCount
  congr 1
  apply List.filter_congr
  intro r _
  simp

/-- C4: getWeeklyStats filters the reminders to the current week — Sunday
00:00:00.000 through Saturday 23:59:59.999 local time around the current
date, both bounds inclusive — and counts medicationsTaken as the filtered
medication reminders with status taken, medicationsMissed as those with
status missed or skipped, appointmentsAttended and appointmentsMissed
likewise for appointment reminders, and totalReminders as the full filtered
count regardless of type. -/
theorem getWeeklyStats_matches_spec (reminders : List Reminder) (now : Int) :
    (getWeeklyStats reminders now).weekStartDate = (getWeekBounds now).1 ∧
    (getWeeklyStats reminders now).weekEndDate = (getWeekBounds now).2 ∧
    msOfDay (getWeekBounds now).1 = 0 ∧
    getDayOfWeek (getWeekBounds now).1 = 0 ∧
    (getWeekBounds now).2 = (getWeekBounds now).1 + 7 * msPerDay - 1 ∧
    (getWeekBounds now).1 ≤ now ∧ now ≤ (getWeekBounds now).2 ∧
    (getWeeklyStats reminders now).medicationsTaken
      = weeklyCount reminders now (fun r => r.type = .medication ∧ r.status = .taken) ∧
    (getWeeklyStats reminders now).medicationsMissed
      = weeklyCount reminders now
          (fun r => r.type = .medication ∧ (r.status = .missed ∨ r.status = .skipped)) ∧
    (getWeeklyStats reminders now).appointmentsAttended
      = weeklyCount reminders now (fun r => r.type = .appointment ∧ r.status = .taken) ∧
    (getWeeklyStats reminders now).appointmentsMissed
      = weeklyCount reminders now
          (fun r => r.type = .appointment ∧ (r.status = .missed ∨ r.status = .skipped)) ∧
    (getWeeklyStats reminders now).totalReminders
      = weeklyCount reminders now (fun _ => True) :=
  ⟨rfl, rfl, (weekBounds_shape now).1, (weekBounds_shape now).2.1,
    (weekBounds_shape now).2.2.1, (weekBounds_shape now).2.2.2.1,
    (weekBounds_shape now).2.2.2.2, medicationsTaken_eq reminders now,
    medicationsMissed_eq reminders now, appointmentsAttended_eq reminders now,
    appointmentsMissed_eq reminders now, totalReminders_eq reminders now⟩

/-- C5: medicationsSnoozed counts every current-week medication reminder
whose status is snoozed OR whose snooze counter is positive, and a
current-week medication reminder with a terminal status (taken or skipped)
and a positive snooze counter is counted both in medicationsSnoozed and in
the taken/missed tally — the double count is preserved. -/
theorem medicationsSnoozed_double_count :
    (∀ (reminders : List Reminder) (now : Int),
      (getWeeklyStats reminders now).medicationsSnoozed
        = weeklyCount reminders now
            (fun r => r.type = .medication ∧ (r.status = .snoozed ∨ 0 < r.snoozeCount))) ∧
    (∀ (r : Reminder) (rest : List Reminder) (now : Int),
      inCurrentWeek now r → r.type = .medication →
      (r.status = .taken ∨ r.status = .skipped) → 0 < r.snoozeCount →
      (getWeeklyStats (r :: rest) now).medicationsSnoozed
          = (getWeeklyStats rest now).medicationsSnoozed + 1 ∧
      (getWeeklyStats (r :: rest) now).medicationsTaken
            + (getWeeklyStats (r :: rest) now).medicationsMissed
          = (getWeeklyStats rest now).medicationsTaken
            + (getWeeklyStats rest now).medicationsMissed + 1) := by
  refine ⟨medicationsSnoozed_eq, ?_⟩
  intro r rest now hweek htype hstat hcount
  rcases hstat with h | h <;>
    simp [medicationsSnoozed_eq, medicationsTaken_eq, medicationsMissed_eq, weeklyCount,
      List.filter_cons, hweek, htype, h, hcount] <;>
    omega

/-- A current-week medication reminder with terminal status and a positive
snooze counter, used to witness the double-count behaviour. -/
def doubleCountedReminder : Reminder :=
  { id := "w1"
    type := .medication
    title := "Take Lisinopril"
    description := none
    scheduledTime := 0
    status := .taken
    snoozedUntil := none
    snoozeCount := 2
    relatedId := none
    createdAt := 0 }

theorem medicationsSnoozed_double_count_witness :
    (inCurrentWeek 0 doubleCountedReminder ∧
      doubleCountedReminder.type = .medication ∧
      (doubleCountedReminder.status = .taken ∨ doubleCountedReminder.status = .skipped) ∧
      0 < doubleCountedReminder.snoozeCount) ∧
    ((getWeeklyStats [doubleCountedReminder] 0).medicationsSnoozed
        = (getWeeklyStats ([] : List Reminder) 0).medicationsSnoozed + 1 ∧
      (getWeeklyStats [doubleCountedReminder] 0).medicationsTaken
          + (getWeeklyStats [doubleCountedReminder] 0).medicationsMissed
        = (getWeeklyStats ([] : List Reminder) 0).medicationsTaken
          + (getWeeklyStats ([] : List Reminder) 0).medicationsMissed + 1) :=
  ⟨⟨by decide, rfl, Or.inl rfl, by decide⟩,
    medicationsSnoozed_double_count.2 doubleCountedReminder [] 0
      (by decide) rfl (Or.inl rfl) (by decide)⟩

/-- Helper: the current-week reminders are partitioned by type. -/
theorem weeklyCount_type_partition (l : List Reminder) (now : Int) :
    weeklyCount l now (fun _ => True)
      = weeklyCount l now (fun r => r.type = .medication)
        + weeklyCount l now (fun r => r.type = .appointment) := by
  induction l with
  | nil => rfl
  | cons r t ih =>
    by_cases hw : inCurrentWeek now r
    · cases htype : r.type <;>
        simp [weeklyCount, List.filter_cons, hw, htype] at ih ⊢ <;> omega
    · simp [weeklyCount, List.filter_cons, hw] at ih ⊢
      omega

/-- Helper: taken-count plus missed-count never exceeds the count of
current-week reminders of that type. -/
theorem weeklyCount_status_le (l : List Reminder) (now : Int) (pt : ReminderType) :
    weeklyCount l now (fun r => r.type = pt ∧ r.status = .taken)
        + weeklyCount l now (fun r => r.type = pt ∧ (r.status = .missed ∨ r.status = .skipped))
      ≤ weeklyCount l now (fun r => r.type = pt) := by
  induction l with
  | nil => simp [weeklyCount]
  | cons r t ih =>
    by_cases hw : inCurrentWeek now r
    · by_cases ht : r.type = pt
      · cases hs : r.status <;>
          simp [weeklyCount, List.filter_cons, hw, ht, hs] at ih ⊢ <;> omega
      · simp [weeklyCount, List.filter_cons, hw, ht] at ih ⊢
        omega
    · simp [weeklyCount, List.filter_cons, hw] at ih ⊢
      omega

/-- C10: totalReminders equals the medication-type count plus the
appointment-type count of the current-week reminders (the type field
partitions the filtered set), medicationsTaken + medicationsMissed never
exceeds the medication-type count, and appointmentsAttended +
appointmentsMissed never exceeds the appointment-type count. -/
theorem weeklyStats_partition_bounds (reminders : List Reminder) (now : Int) :
    (getWeeklyStats reminders now).totalReminders
      = weeklyCount reminders now (fun r => r.type = .medication)
        + weeklyCount reminders now (fun r => r.type = .appointment) ∧
    (getWeeklyStats reminders now).medicationsTaken
        + (getWeeklyStats reminders now).medicationsMissed
      ≤ weeklyCount reminders now (fun r => r.type = .medication) ∧
    (getWeeklyStats reminders now).appointmentsAttended
        + (getWeeklyStats reminders now).appointmentsMissed
      ≤ weeklyCount reminders now (fun r => r.type = .appointment) := by
  refine ⟨?_, ?_, ?_⟩
  · rw [totalReminders_eq, weeklyCount_type_partition]
  · rw [medicationsTaken_eq, medicationsMissed_eq]
    exact weeklyCount_status_le reminders now .medication
  · rw [appointmentsAttended_eq, appointmentsMissed_eq]
    exact weeklyCount_status_le reminders now .appointment

/-! ## Characterizations of the primitive controller operations -/

/-- Helper: a successful `addReminder` returns exactly the record built from
its input with the next generated id, appends it to both the store and the
mirror, and advances both counters. -/
theorem addReminder_ok (inp : ReminderInput) (now : Int) (s : St)
    (r : Reminder) (s' : St) (h : addReminder inp now s = (.ok r, s')) :
    r = mkReminder inp (idAt s.env s.idCalls) now ∧
    s' = { s with
      idCalls := s.idCalls + 1
      storeCalls := s.storeCalls + 1
      store := { s.store with reminders := s.store.reminders ++ [r] }
      mem := { s.mem with reminders := s.mem.reminders ++ [r] } } := by
  unfold addReminder nextId storeAddReminder stepFail at h
  by_cases hf : s.env.failures s.storeCalls <;>
    simp only [hf, if_true, if_false, Bool.false_eq_true, ite_true, ite_false] at h
  · cases h
  · by_cases hd : ({ s with idCalls := s.idCalls + 1 } : St).store.reminders.any
        (fun x => x.id = (mkReminder inp (idAt s.env s.idCalls) now).id) <;>
      simp only [hd, if_true, if_false] at h
    · cases h
    · obtain ⟨h1, h2⟩ := Prod.mk.injEq .. ▸ h
      cases h1
      exact ⟨rfl, h2.symm⟩

/-- Helper: a failed `addReminder` only advances the counters; store and
mirrors are untouched. -/
theorem addReminder_error (inp : ReminderInput) (now : Int) (s : St)
    (e : Unit) (s' : St) (h : addReminder inp now s = (.error e, s')) :
    s' = { s with idCalls := s.idCalls + 1, storeCalls := s.storeCalls + 1 } := by
  unfold addReminder nextId storeAddReminder stepFail at h
  by_cases hf : s.env.failures s.storeCalls <;>
    simp only [hf, if_true, if_false, Bool.false_eq_true, ite_true, ite_false] at h
  · obtain ⟨-, h2⟩ := Prod.mk.injEq .. ▸ h
    exact h2.symm
  · by_cases hd : ({ s with idCalls := s.idCalls + 1 } : St).store.reminders.any
        (fun x => x.id = (mkReminder inp (idAt s.env s.idCalls) now).id) <;>
      simp only [hd, if_true, if_false] at h
    · obtain ⟨-, h2⟩ := Prod.mk.injEq .. ▸ h
      exact h2.symm
    · cases h

/-- Helper: a successful `storeAddAppointment` appends the record to the
store and advances the request counter. -/
theorem storeAddAppointment_ok (a : Appointment) (s s' : St)
    (h : storeAddAppointment a s = (.ok (), s')) :
    s' = { s with
      storeCalls := s.storeCalls + 1
      store := { s.store with appointments := s.store.appointments ++ [a] } } := by
  unfold storeAddAppointment stepFail at h
  by_cases hf : s.env.failures s.storeCalls <;>
    simp only [hf, if_true, if_false, Bool.false_eq_true, ite_true, ite_false] at h
  · cases h
  · by_cases hd : ({ s with storeCalls := s.storeCalls + 1 } : St).store.appointments.any
        (fun x => x.id = a.id) <;> simp only [hd, if_true, if_false] at h
    · cases h
    · obtain ⟨-, h2⟩ := Prod.mk.injEq .. ▸ h
      exact h2.symm

/-- Helper: a successful `addAppointment` returns exactly the appointment
built from its input, appends it to store and mirror, and appends the single
derived reminder (scheduled 60 minutes earlier) to store and mirror. -/
theorem addAppointment_ok (inp : AppointmentInput) (now : Int) (s : St)
    (a : Appointment) (s' : St) (h : addAppointment inp now s = (.ok a, s')) :
    a = mkAppointment inp (idAt s.env s.idCalls) now ∧
    s' = { s with
      idCalls := s.idCalls + 1 + 1
      storeCalls := s.storeCalls + 1 + 1
      store := { s.store with
        appointments := s.store.appointments ++ [a]
        reminders := s.store.reminders ++
          [mkReminder (appointmentReminderInput inp a.id) (idAt s.env (s.idCalls + 1)) now] }
      mem := { s.mem with
        appointments := s.mem.appointments ++ [a]
        reminders := s.mem.reminders ++
          [mkReminder (appointmentReminderInput inp a.id) (idAt s.env (s.idCalls + 1)) now] } } := by
  unfold addAppointment nextId at h
  dsimp only at h
  split at h
  · cases h
  · split at h
    · cases h
    · rename_i x1 v s2 heq1 x2 r s4 heq2
      obtain ⟨h1, h2⟩ := Prod.mk.injEq .. ▸ h
      obtain rfl : a = mkAppointment inp (idAt s.env s.idCalls) now :=
        (Except.ok.injEq .. ▸ h1).symm
      have hs2 := storeAddAppointment_ok _ _ _ heq1
      subst hs2
      obtain ⟨hr, hs4⟩ := addReminder_ok _ _ _ _ _ heq2
      subst hs4
      subst hr
      refine ⟨rfl, ?_⟩
      rw [← h2]

/-- C2: a successful addAppointment creates the appointment with initial
status upcoming, appends exactly one reminder whose scheduledTime is the
appointment date-time minus 60 minutes, with type appointment and relatedId
equal to the new appointment's identifier, leaves the medication mirror
unchanged, and returns the created appointment. -/
theorem addAppointment_creates_reminder (inp : AppointmentInput) (now : Int)
    (s : St) (a : Appointment) (s' : St)
    (h : addAppointment inp now s = (.ok a, s')) :
    a = mkAppointment inp (idAt s.env s.idCalls) now ∧
    a.status = .upcoming ∧
    a.dateTime = inp.dateTime ∧
    s'.mem.appointments = s.mem.appointments ++ [a] ∧
    (∃ rem : Reminder,
      s'.mem.reminders = s.mem.reminders ++ [rem] ∧
      rem.type = .appointment ∧
      rem.relatedId = some a.id ∧
      rem.scheduledTime = inp.dateTime - 60 * 60000 ∧
      rem.status = .pending ∧
      rem.snoozeCount = 0) ∧
    s'.mem.medications = s.mem.medications := by
  obtain ⟨ha, hs⟩ := addAppointment_ok inp now s a s' h
  subst hs
  refine ⟨ha, by rw [ha]; rfl, by rw [ha]; rfl, rfl,
    ⟨mkReminder (appointmentReminderInput inp a.id) (idAt s.env (s.idCalls + 1)) now,
      rfl, rfl, rfl, ?_, rfl, rfl⟩, rfl⟩
  show inp.dateTime - 60 * 60 * 1000 = inp.dateTime - 60 * 60000
  norm_num

/-- Concrete environment for witnesses: sequential timestamps, one fixed
random suffix, no store failures. -/
def witnessEnv : Env :=
  { timestamps := fun n => n
    rands := fun _ => "x"
    failures := fun _ => false }

/-- A fresh-install state under `witnessEnv`. -/
def witnessSt : St :=
  { store := DB.empty, mem := DB.empty, env := witnessEnv, idCalls := 0, storeCalls := 0 }

def witnessApptInput : AppointmentInput :=
  { title := "Checkup"
    doctor := none
    location := "Clinic"
    dateTime := 7200000
    notes := none
    checklist := [] }

def witnessAppt : Appointment := mkAppointment witnessApptInput (idAt witnessEnv 0) 0

theorem addAppointment_creates_reminder_witness :
    addAppointment witnessApptInput 0 witnessSt
        = (.ok witnessAppt, (addAppointment witnessApptInput 0 witnessSt).2) ∧
    (witnessAppt = mkAppointment witnessApptInput (idAt witnessSt.env witnessSt.idCalls) 0 ∧
      witnessAppt.status = .upcoming ∧
      witnessAppt.dateTime = witnessApptInput.dateTime ∧
      (addAppointment witnessApptInput 0 witnessSt).2.mem.appointments
        = witnessSt.mem.appointments ++ [witnessAppt] ∧
      (∃ rem : Reminder,
        (addAppointment witnessApptInput 0 witnessSt).2.mem.reminders
          = witnessSt.mem.reminders ++ [rem] ∧
        rem.type = .appointment ∧
        rem.relatedId = some witnessAppt.id ∧
        rem.scheduledTime = witnessApptInput.dateTime - 60 * 60000 ∧
        rem.status = .pending ∧
        rem.snoozeCount = 0) ∧
      (addAppointment witnessApptInput 0 witnessSt).2.mem.medications
        = witnessSt.mem.medications) :=
  ⟨rfl, addAppointment_creates_reminder witnessApptInput 0 witnessSt witnessAppt
    (addAppointment witnessApptInput 0 witnessSt).2 rfl⟩

/-- Spec-side: "today at that time" — the current day at the parsed
hours/minutes. -/
def todayAtTime (now : Int) (time : String) : Int :=
  setHoursMs now (parseTime time).1 (parseTime time).2 0 0

/-- Spec-side: today at the given time if that time has not yet passed at
the moment of the call, otherwise tomorrow at that time. -/
def specScheduledTime (now : Int) (time : String) : Int :=
  if now ≤ todayAtTime now time then todayAtTime now time
  else addDays (todayAtTime now time) 1

/-- Helper: the code's scheduling rule coincides with the spec phrasing. -/
theorem medicationScheduledTime_eq_spec (now : Int) (time : String) :
    medicationScheduledTime now time = specScheduledTime now time := by
  unfold medicationScheduledTime specScheduledTime todayAtTime
  rcases parseTime time with ⟨h, m⟩
  dsimp only
  by_cases hlt : setHoursMs now h m 0 0 < now
  · rw [if_pos hlt, if_neg (by omega)]
  · rw [if_neg hlt, if_pos (by omega)]

/-- The reminders a successful `addMedication` appends: one per time string,
ids drawn from consecutive `generateId` calls starting at index `k`. -/
def expectedMedReminders (med : Medication) (now : Int) (env : Env) :
    Nat → List String → List Reminder
  | _, [] => []
  | k, time :: rest =>
      mkReminder (medicationReminderInput med now time) (idAt env k) now
        :: expectedMedReminders med now env (k + 1) rest

theorem expectedMedReminders_length (med : Medication) (now : Int) (env : Env) :
    ∀ (times : List String) (k : Nat),
      (expectedMedReminders med now env k times).length = times.length := by
  intro times
  induction times with
  | nil => intro k; rfl
  | cons t rest ih =>
      intro k
      simp [expectedMedReminders, ih (k + 1)]

theorem expectedMedReminders_get (med : Medication) (now : Int) (env : Env) :
    ∀ (times : List String) (k i : Nat) (hi : i < times.length)
      (hi2 : i < (expectedMedReminders med now env k times).length),
      (expectedMedReminders med now env k times).get ⟨i, hi2⟩
        = mkReminder (medicationReminderInput med now (times.get ⟨i, hi⟩))
            (idAt env (k + i)) now := by
  intro times
  induction times with
  | nil => intro k i hi _; cases hi
  | cons t rest ih =>
      intro k i hi hi2
      cases i with
      | zero => rfl
      | succ j =>
          have hj : j < rest.length := Nat.lt_of_succ_lt_succ hi
          have hj2 : j < (expectedMedReminders med now env (k + 1) rest).length := by
            rw [expectedMedReminders_length]; exact hj
          have := ih (k + 1) j hj hj2
          simpa [expectedMedReminders, Nat.add_assoc, Nat.add_comm 1 j] using this

/-- Helper: a successful medication-reminder loop appends exactly the
expected reminders to the mirror, leaves the other mirrors unchanged, and
preserves the environment. -/
theorem addMedicationRemindersLoop_ok (med : Medication) (now : Int) :
    ∀ (times : List String) (s : St) (u : Unit) (s' : St),
      addMedicationRemindersLoop med now times s = (.ok u, s') →
      s'.mem.reminders = s.mem.reminders
          ++ expectedMedReminders med now s.env s.idCalls times ∧
      s'.mem.medications = s.mem.medications ∧
      s'.mem.appointments = s.mem.appointments := by
  intro times
  induction times with
  | nil =>
      intro s u s' h
      obtain ⟨-, h2⟩ := Prod.mk.injEq .. ▸ h
      subst h2
      simp [expectedMedReminders]
  | cons t rest ih =>
      intro s u s' h
      unfold addMedicationRemindersLoop at h
      split at h
      · cases h
      · rename_i x r s1 heq
        obtain ⟨hr, hs1⟩ := addReminder_ok _ _ _ _ _ heq
        obtain ⟨ih1, ih2, ih3⟩ := ih _ u s' h
        subst hs1
        subst hr
        refine ⟨?_, ih2, ih3⟩
        rw [ih1]
        simp [expectedMedReminders, List.append_assoc]

/-- Helper: a successful `storeAddMedication` appends the record to the
store and advances the request counter. -/
theorem storeAddMedication_ok (m : Medication) (s s' : St)
    (h : storeAddMedication m s = (.ok (), s')) :
    s' = { s with
      storeCalls := s.storeCalls + 1
      store := { s.store with medications := s.store.medications ++ [m] } } := by
  unfold storeAddMedication stepFail at h
  by_cases hf : s.env.failures s.storeCalls <;>
    simp only [hf, if_true, if_false, Bool.false_eq_true, ite_true, ite_false] at h
  · cases h
  · by_cases hd : ({ s with storeCalls := s.storeCalls + 1 } : St).store.medications.any
        (fun x => x.id = m.id) <;> simp only [hd, if_true, if_false] at h
    · cases h
    · obtain ⟨-, h2⟩ := Prod.mk.injEq .. ▸ h
      exact h2.symm

/-- C1: a successful addMedication with N configured times creates the
medication record and appends exactly N reminders to the mirror, one per
time-of-day string, each with type medication, relatedId equal to the new
medication's identifier, status pending, snoozeCount 0, and scheduledTime
equal to today at that time if it has not yet passed, else tomorrow at that
time; the call returns the created medication. -/
theorem addMedication_creates_reminders (inp : MedicationInput) (now : Int)
    (s : St) (m : Medication) (s' : St)
    (h : addMedication inp now s = (.ok m, s')) :
    m = mkMedication inp (idAt s.env s.idCalls) now ∧
    s'.mem.medications = s.mem.medications ++ [m] ∧
    s'.mem.appointments = s.mem.appointments ∧
    ∃ newRs : List Reminder,
      s'.mem.reminders = s.mem.reminders ++ newRs ∧
      newRs.length = inp.times.length ∧
      ∀ (i : Nat) (hi : i < inp.times.length) (hi2 : i < newRs.length),
        (newRs.get ⟨i, hi2⟩).type = .medication ∧
        (newRs.get ⟨i, hi2⟩).relatedId = some m.id ∧
        (newRs.get ⟨i, hi2⟩).status = .pending ∧
        (newRs.get ⟨i, hi2⟩).snoozeCount = 0 ∧
        (newRs.get ⟨i, hi2⟩).scheduledTime = specScheduledTime now (inp.times.get ⟨i, hi⟩) := by
  unfold addMedication nextId at h
  dsimp only at h
  split at h
  · cases h
  · rename_i x v s2 heq1
    split at h
    · cases h
    · rename_i y u s4 heq2
      obtain ⟨h1, h2⟩ := Prod.mk.injEq .. ▸ h
      obtain rfl : m = mkMedication inp (idAt s.env s.idCalls) now :=
        (Except.ok.injEq .. ▸ h1).symm
      subst h2
      have hs2 := storeAddMedication_ok _ _ _ heq1
      subst hs2
      obtain ⟨hl1, hl2, hl3⟩ := addMedicationRemindersLoop_ok _ _ _ _ _ _ heq2
      refine ⟨rfl, by rw [hl2], by rw [hl3],
        expectedMedReminders (mkMedication inp (idAt s.env s.idCalls) now) now s.env
          (s.idCalls + 1) inp.times, by rw [hl1], ?_, ?_⟩
      · rw [expectedMedReminders_length]
      · intro i hi hi2
        rw [expectedMedReminders_get _ _ _ _ _ _ hi hi2]
        exact ⟨rfl, rfl, rfl, rfl, medicationScheduledTime_eq_spec now _⟩

def witnessMedInput : MedicationInput :=
  { name := "Lisinopril"
    dosage := "10mg"
    frequency := "Once daily"
    times := ["08:00", "20:00"]
    notes := none }

def witnessMed : Medication := mkMedication witnessMedInput (idAt witnessEnv 0) 0

theorem addMedication_creates_reminders_witness :
    addMedication witnessMedInput 0 witnessSt
        = (.ok witnessMed, (addMedication witnessMedInput 0 witnessSt).2) ∧
    (witnessMed = mkMedication witnessMedInput (idAt witnessSt.env witnessSt.idCalls) 0 ∧
      (addMedication witnessMedInput 0 witnessSt).2.mem.medications
        = witnessSt.mem.medications ++ [witnessMed] ∧
      (addMedication witnessMedInput 0 witnessSt).2.mem.appointments
        = witnessSt.mem.appointments ∧
      ∃ newRs : List Reminder,
        (addMedication witnessMedInput 0 witnessSt).2.mem.reminders
          = witnessSt.mem.reminders ++ newRs ∧
        newRs.length = witnessMedInput.times.length ∧
        ∀ (i : Nat) (hi : i < witnessMedInput.times.length) (hi2 : i < newRs.length),
          (newRs.get ⟨i, hi2⟩).type = .medication ∧
          (newRs.get ⟨i, hi2⟩).relatedId = some witnessMed.id ∧
          (newRs.get ⟨i, hi2⟩).status = .pending ∧
          (newRs.get ⟨i, hi2⟩).snoozeCount = 0 ∧
          (newRs.get ⟨i, hi2⟩).scheduledTime
            = specScheduledTime 0 (witnessMedInput.times.get ⟨i, hi⟩)) :=
  ⟨rfl, addMedication_creates_reminders witnessMedInput 0 witnessSt witnessMed
    (addMedication witnessMedInput 0 witnessSt).2 rfl⟩

/-- Helper: a successful `deleteReminder` filters the id out of store and
mirror and advances the request counter. -/
theorem deleteReminder_ok (id : String) (s : St) (u : Unit) (s' : St)
    (h : deleteReminder id s = (.ok u, s')) :
    s' = { s with
      storeCalls := s.storeCalls + 1
      store := { s.store with
        reminders := s.store.reminders.filter (fun x => x.id ≠ id) }
      mem := { s.mem with
        reminders := s.mem.reminders.filter (fun x => x.id ≠ id) } } := by
  unfold deleteReminder storeRemoveReminder stepFail at h
  by_cases hf : s.env.failures s.storeCalls <;>
    simp only [hf, if_true, if_false, Bool.false_eq_true, ite_true, ite_false] at h
  · cases h
  · obtain ⟨-, h2⟩ := Prod.mk.injEq .. ▸ h
    exact h2.symm

/-- Helper: the cascade loop removes exactly the reminders whose ids occur in
the looped-over list, and touches nothing else in the mirrors. -/
theorem deleteRemindersLoop_ok :
    ∀ (rs : List Reminder) (s : St) (u : Unit) (s' : St),
      deleteRemindersLoop rs s = (.ok u, s') →
      s'.mem.reminders
          = s.mem.reminders.filter (fun r => decide (r.id ∉ rs.map Reminder.id)) ∧
      s'.mem.medications = s.mem.medications ∧
      s'.mem.appointments = s.mem.appointments ∧
      s'.env = s.env := by
  intro rs
  induction rs with
  | nil =>
      intro s u s' h
      obtain ⟨-, h2⟩ := Prod.mk.injEq .. ▸ h
      subst h2
      simp
  | cons r rest ih =>
      intro s u s' h
      unfold deleteRemindersLoop at h
      split at h
      · cases h
      · rename_i x v s1 heq
        obtain ⟨ih1, ih2, ih3, ih4⟩ := ih _ u s' h
        have hs1 := deleteReminder_ok _ _ _ _ heq
        subst hs1
        refine ⟨?_, ih2, ih3, ih4⟩
        rw [ih1]
        dsimp only
        rw [List.filter_filter]
        apply List.filter_congr
        intro x _
        show (decide (x.id ∉ rest.map Reminder.id) && decide (x.id ≠ r.id))
            = decide (x.id ∉ (r :: rest).map Reminder.id)
        by_cases h1 : x.id = r.id <;> by_cases h2 : x.id ∈ rest.map Reminder.id <;>
          simp [h1, h2]

/-- Helper: when reminder ids are duplicate-free, removing the ids of the
relatedId-matching sublist is removing exactly the relatedId-matching
entries. -/
theorem relatedFilter_eq (l : List Reminder) (id : String)
    (hnd : (l.map Reminder.id).Nodup) :
    l.filter (fun r => decide (r.id ∉
        (l.filter (fun x => decide (x.relatedId = some id))).map Reminder.id))
      = l.filter (fun r => decide (r.relatedId ≠ some id)) := by
  apply List.filter_congr
  intro r hr
  have hiff : (r.id ∈
      (l.filter (fun x => decide (x.relatedId = some id))).map Reminder.id)
      ↔ r.relatedId = some id := by
    constructor
    · intro hmem
      obtain ⟨x, hx, hxid⟩ := List.mem_map.mp hmem
      have hxl : x ∈ l := List.mem_of_mem_filter hx
      have hxrel : x.relatedId = some id := by
        simpa using (List.mem_filter.mp hx).2
      have hxr : x = r := List.inj_on_of_nodup_map hnd hxl hr hxid
      rw [← hxr]
      exact hxrel
    · intro hrel
      exact List.mem_map.mpr ⟨r, List.mem_filter.mpr ⟨hr, by simp [hrel]⟩, rfl⟩
  by_cases hc : r.relatedId = some id <;> simp [hiff, hc]

/-- Helper: a successful `storeRemoveMedication` filters the id out of the
store collection and advances the request counter. -/
theorem storeRemoveMedication_ok (id : String) (s s' : St)
    (h : storeRemoveMedication id s = (.ok (), s')) :
    s' = { s with
      storeCalls := s.storeCalls + 1
      store := { s.store with
        medications := s.store.medications.filter (fun x => x.id ≠ id) } } := by
  unfold storeRemoveMedication stepFail at h
  by_cases hf : s.env.failures s.storeCalls <;>
    simp only [hf, if_true, if_false, Bool.false_eq_true, ite_true, ite_false] at h
  · cases h
  · obtain ⟨-, h2⟩ := Prod.mk.injEq .. ▸ h
    exact h2.symm

/-- Helper: a successful `storeRemoveAppointment` filters the id out of the
store collection and advances the request counter. -/
theorem storeRemoveAppointment_ok (id : String) (s s' : St)
    (h : storeRemoveAppointment id s = (.ok (), s')) :
    s' = { s with
      storeCalls := s.storeCalls + 1
      store := { s.store with
        appointments := s.store.appointments.filter (fun x => x.id ≠ id) } } := by
  unfold storeRemoveAppointment stepFail at h
  by_cases hf : s.env.failures s.storeCalls <;>
    simp only [hf, if_true, if_false, Bool.false_eq_true, ite_true, ite_false] at h
  · cases h
  · obtain ⟨-, h2⟩ := Prod.mk.injEq .. ▸ h
    exact h2.symm

/-- C3: when the reminder mirror has duplicate-free ids and the cascade
completes, deleteMedication (respectively deleteAppointment) removes the
primary record with the given identifier and every reminder whose relatedId
equals it, and leaves every other reminder and the two unrelated collections
unchanged. -/
theorem delete_cascades_related_reminders :
    (∀ (id : String) (s : St) (u : Unit) (s' : St),
      deleteMedication id s = (.ok u, s') →
      (s.mem.reminders.map Reminder.id).Nodup →
      s'.mem.medications = s.mem.medications.filter (fun m => decide (m.id ≠ id)) ∧
      s'.mem.reminders = s.mem.reminders.filter (fun r => decide (r.relatedId ≠ some id)) ∧
      s'.mem.appointments = s.mem.appointments) ∧
    (∀ (id : String) (s : St) (u : Unit) (s' : St),
      deleteAppointment id s = (.ok u, s') →
      (s.mem.reminders.map Reminder.id).Nodup →
      s'.mem.appointments = s.mem.appointments.filter (fun a => decide (a.id ≠ id)) ∧
      s'.mem.reminders = s.mem.reminders.filter (fun r => decide (r.relatedId ≠ some id)) ∧
      s'.mem.medications = s.mem.medications) := by
  constructor
  · intro id s u s' h hnd
    unfold deleteMedication at h
    split at h
    · cases h
    · rename_i x v s2 heq
      have hs2 := storeRemoveMedication_ok _ _ _ heq
      subst hs2
      obtain ⟨hl1, hl2, hl3, -⟩ := deleteRemindersLoop_ok _ _ u s' h
      refine ⟨by rw [hl2], ?_, by rw [hl3]⟩
      rw [hl1]
      exact relatedFilter_eq s.mem.reminders id hnd
  · intro id s u s' h hnd
    unfold deleteAppointment at h
    split at h
    · cases h
    · rename_i x v s2 heq
      have hs2 := storeRemoveAppointment_ok _ _ _ heq
      subst hs2
      obtain ⟨hl1, hl2, hl3, -⟩ := deleteRemindersLoop_ok _ _ u s' h
      refine ⟨by rw [hl3], ?_, by rw [hl2]⟩
      rw [hl1]
      exact relatedFilter_eq s.mem.reminders id hnd

def c3Reminder1 : Reminder :=
  { id := "r1", type := .medication, title := "Take M", description := none
    scheduledTime := 0, status := .pending, snoozedUntil := none
    snoozeCount := 0, relatedId := some "med1", createdAt := 0 }

def c3Reminder2 : Reminder :=
  { id := "r2", type := .appointment, title := "Appt A", description := none
    scheduledTime := 0, status := .pending, snoozedUntil := none
    snoozeCount := 0, relatedId := some "appt1", createdAt := 0 }

def c3Reminder3 : Reminder :=
  { id := "r3", type := .medication, title := "Take N", description := none
    scheduledTime := 0, status := .pending, snoozedUntil := none
    snoozeCount := 0, relatedId := none, createdAt := 0 }

def c3Med : Medication :=
  { id := "med1", name := "M", dosage := "1mg", frequency := "daily"
    times := [], notes := none, createdAt := 0 }

def c3Appt : Appointment :=
  { id := "appt1", title := "A", doctor := none, location := "L"
    dateTime := 0, notes := none, checklist := [], status := .upcoming
    createdAt := 0 }

def c3DB : DB :=
  { reminders := [c3Reminder1, c3Reminder2, c3Reminder3]
    appointments := [c3Appt]
    medications := [c3Med] }

def c3St : St :=
  { store := c3DB, mem := c3DB, env := witnessEnv, idCalls := 0, storeCalls := 0 }

theorem delete_cascades_related_reminders_witness :
    (deleteMedication "med1" c3St = (.ok (), (deleteMedication "med1" c3St).2) ∧
      (c3St.mem.reminders.map Reminder.id).Nodup ∧
      ((deleteMedication "med1" c3St).2.mem.medications
          = c3St.mem.medications.filter (fun m => decide (m.id ≠ "med1")) ∧
        (deleteMedication "med1" c3St).2.mem.reminders
          = c3St.mem.reminders.filter (fun r => decide (r.relatedId ≠ some "med1")) ∧
        (deleteMedication "med1" c3St).2.mem.appointments = c3St.mem.appointments)) ∧
    (deleteAppointment "appt1" c3St = (.ok (), (deleteAppointment "appt1" c3St).2) ∧
      ((deleteAppointment "appt1" c3St).2.mem.appointments
          = c3St.mem.appointments.filter (fun a => decide (a.id ≠ "appt1")) ∧
        (deleteAppointment "appt1" c3St).2.mem.reminders
          = c3St.mem.reminders.filter (fun r => decide (r.relatedId ≠ some "appt1")) ∧
        (deleteAppointment "appt1" c3St).2.mem.medications = c3St.mem.medications)) :=
  ⟨⟨rfl, by decide,
      delete_cascades_related_reminders.1 "med1" c3St ()
        (deleteMedication "med1" c3St).2 rfl (by decide)⟩,
    ⟨rfl,
      delete_cascades_related_reminders.2 "appt1" c3St ()
        (deleteAppointment "appt1" c3St).2 rfl (by decide)⟩⟩

/-- Helper: a failed `updateReminder` (the put can only fail through the
oracle) only advances the request counter. -/
theorem updateReminder_error (r : Reminder) (s : St) (e : Unit) (s' : St)
    (h : updateReminder r s = (.error e, s')) :
    s' = { s with storeCalls := s.storeCalls + 1 } := by
  unfold updateReminder storePutReminder stepFail at h
  by_cases hf : s.env.failures s.storeCalls <;>
    simp only [hf, if_true, if_false, Bool.false_eq_true, ite_true, ite_false] at h
  · obtain ⟨-, h2⟩ := Prod.mk.injEq .. ▸ h
    exact h2.symm
  · by_cases hd : ({ s with storeCalls := s.storeCalls + 1 } : St).store.reminders.any
        (fun x => x.id = r.id) <;> simp only [hd, if_true, if_false] at h <;> cases h

/-- Helper: a failed `deleteReminder` only advances the request counter. -/
theorem deleteReminder_error (id : String) (s : St) (e : Unit) (s' : St)
    (h : deleteReminder id s = (.error e, s')) :
    s' = { s with storeCalls := s.storeCalls + 1 } := by
  unfold deleteReminder storeRemoveReminder stepFail at h
  by_cases hf : s.env.failures s.storeCalls <;>
    simp only [hf, if_true, if_false, Bool.false_eq_true, ite_true, ite_false] at h
  · obtain ⟨-, h2⟩ := Prod.mk.injEq .. ▸ h
    exact h2.symm
  · cases h

/-- Helper: a failed `updateAppointment` only advances the request counter. -/
theorem updateAppointment_error (a : Appointment) (s : St) (e : Unit) (s' : St)
    (h : updateAppointment a s = (.error e, s')) :
    s' = { s with storeCalls := s.storeCalls + 1 } := by
  unfold updateAppointment storePutAppointment stepFail at h
  by_cases hf : s.env.failures s.storeCalls <;>
    simp only [hf, if_true, if_false, Bool.false_eq_true, ite_true, ite_false] at h
  · obtain ⟨-, h2⟩ := Prod.mk.injEq .. ▸ h
    exact h2.symm
  · by_cases hd : ({ s with storeCalls := s.storeCalls + 1 } : St).store.appointments.any
        (fun x => x.id = a.id) <;> simp only [hd, if_true, if_false] at h <;> cases h

/-- Helper: a failed `updateMedication` only advances the request counter. -/
theorem updateMedication_error (m : Medication) (s : St) (e : Unit) (s' : St)
    (h : updateMedication m s = (.error e, s')) :
    s' = { s with storeCalls := s.storeCalls + 1 } := by
  unfold updateMedication storePutMedication stepFail at h
  by_cases hf : s.env.failures s.storeCalls <;>
    simp only [hf, if_true, if_false, Bool.false_eq_true, ite_true, ite_false] at h
  · obtain ⟨-, h2⟩ := Prod.mk.injEq .. ▸ h
    exact h2.symm
  · by_cases hd : ({ s with storeCalls := s.storeCalls + 1 } : St).store.medications.any
        (fun x => x.id = m.id) <;> simp only [hd, if_true, if_false] at h <;> cases h

/-- C6 (amended): every single-write mutation (addReminder, updateReminder,
deleteReminder, updateAppointment, updateMedication) that throws leaves all
three in-memory mirrors exactly as they were, and every mutation whose first
store write fails throws and leaves the mirrors unchanged; composite
mutations that throw after earlier writes succeeded keep those earlier
writes reflected in memory (see the counterexample). -/
theorem mutation_memory_update_discipline :
    (∀ (op : Op) (now : Int) (s : St),
      op.singleWrite = true →
      (runOp op now s).1 = .error () →
      (runOp op now s).2.mem = s.mem) ∧
    (∀ (op : Op) (now : Int) (s : St),
      s.env.failures s.storeCalls = true →
      (runOp op now s).1 = .error () ∧ (runOp op now s).2.mem = s.mem) := by
  constructor
  · intro op now s hsw herr
    cases op with
    | opAddReminder inp =>
        rcases h : addReminder inp now s with ⟨res, s2⟩
        have hrun : runOp (.opAddReminder inp) now s = (res.map (fun _ => ()), s2) := by
          unfold runOp
          dsimp only
          rw [h]
        rw [hrun] at herr ⊢
        cases res with
        | ok r => simp [Except.map] at herr
        | error e => rw [addReminder_error inp now s e s2 h]
    | opUpdateReminder r =>
        rcases h : updateReminder r s with ⟨res, s2⟩
        have hrun : runOp (.opUpdateReminder r) now s = (res, s2) := by
          unfold runOp
          dsimp only
          exact h
        rw [hrun] at herr ⊢
        cases res with
        | ok u => simp at herr
        | error e => rw [updateReminder_error r s e s2 h]
    | opDeleteReminder id =>
        rcases h : deleteReminder id s with ⟨res, s2⟩
        have hrun : runOp (.opDeleteReminder id) now s = (res, s2) := by
          unfold runOp
          dsimp only
          exact h
        rw [hrun] at herr ⊢
        cases res with
        | ok u => simp at herr
        | error e => rw [deleteReminder_error id s e s2 h]
    | opUpdateAppointment a =>
        rcases h : updateAppointment a s with ⟨res, s2⟩
        have hrun : runOp (.opUpdateAppointment a) now s = (res, s2) := by
          unfold runOp
          dsimp only
          exact h
        rw [hrun] at herr ⊢
        cases res with
        | ok u => simp at herr
        | error e => rw [updateAppointment_error a s e s2 h]
    | opUpdateMedication m =>
        rcases h : updateMedication m s with ⟨res, s2⟩
        have hrun : runOp (.opUpdateMedication m) now s = (res, s2) := by
          unfold runOp
          dsimp only
          exact h
        rw [hrun] at herr ⊢
        cases res with
        | ok u => simp at herr
        | error e => rw [updateMedication_error m s e s2 h]
    | opAddAppointment inp => simp [Op.singleWrite] at hsw
    | opDeleteAppointment id => simp [Op.singleWrite] at hsw
    | opAddMedication inp => simp [Op.singleWrite] at hsw
    | opDeleteMedication id => simp [Op.singleWrite] at hsw
  · intro op now s hf
    cases op <;>
      simp only [runOp, addReminder, updateReminder, deleteReminder, addAppointment,
        updateAppointment, deleteAppointment, addMedication, updateMedication,
        deleteMedication, nextId, storeAddReminder, storePutReminder, storeRemoveReminder,
        storeAddAppointment, storePutAppointment, storeRemoveAppointment,
        storeAddMedication, storePutMedication, storeRemoveMedication, stepFail, hf,
        if_true, ite_true] <;>
      exact ⟨by trivial, by trivial⟩

/-- Environment whose second store request fails (the first succeeds). -/
def secondWriteFailsEnv : Env :=
  { timestamps := fun n => n
    rands := fun _ => "x"
    failures := fun n => n == 1 }

def secondWriteFailsSt : St :=
  { store := DB.empty, mem := DB.empty, env := secondWriteFailsEnv
    idCalls := 0, storeCalls := 0 }

/-- C6 counterexample: with the appointment write succeeding and the derived
reminder write failing, addAppointment throws yet the appointment mirror has
already been updated — the mirrors are not left as they were before the
call. -/
theorem mutation_rollback_counterexample :
    (addAppointment witnessApptInput 0 secondWriteFailsSt).1 = .error () ∧
    (addAppointment witnessApptInput 0 secondWriteFailsSt).2.mem.appointments
      ≠ secondWriteFailsSt.mem.appointments :=
  ⟨rfl, by decide⟩

/-- Environment where every store request fails. -/
def allWritesFailEnv : Env :=
  { timestamps := fun n => n
    rands := fun _ => "x"
    failures := fun _ => true }

def allWritesFailSt : St :=
  { store := DB.empty, mem := DB.empty, env := allWritesFailEnv
    idCalls := 0, storeCalls := 0 }

theorem mutation_memory_update_discipline_witness :
    ((Op.opDeleteReminder "r1").singleWrite = true ∧
      (runOp (.opDeleteReminder "r1") 0 allWritesFailSt).1 = .error () ∧
      (runOp (.opDeleteReminder "r1") 0 allWritesFailSt).2.mem = allWritesFailSt.mem) ∧
    (allWritesFailSt.env.failures allWritesFailSt.storeCalls = true ∧
      (runOp (.opAddMedication witnessMedInput) 0 allWritesFailSt).1 = .error () ∧
      (runOp (.opAddMedication witnessMedInput) 0 allWritesFailSt).2.mem
        = allWritesFailSt.mem) :=
  ⟨⟨rfl, rfl,
      mutation_memory_update_discipline.1 (.opDeleteReminder "r1") 0 allWritesFailSt rfl rfl⟩,
    ⟨rfl,
      (mutation_memory_update_discipline.2 (.opAddMedication witnessMedInput) 0
        allWritesFailSt rfl).1,
      (mutation_memory_update_discipline.2 (.opAddMedication witnessMedInput) 0
        allWritesFailSt rfl).2⟩⟩

/-- Helper: a successful `updateReminder` replaces the matching entry in the
mirror and leaves the other mirrors unchanged. -/
theorem updateReminder_ok (r : Reminder) (s : St) (u : Unit) (s' : St)
    (h : updateReminder r s = (.ok u, s')) :
    s'.mem.reminders = s.mem.reminders.map (fun x => if x.id = r.id then r else x) ∧
    s'.mem.appointments = s.mem.appointments ∧
    s'.mem.medications = s.mem.medications := by
  unfold updateReminder storePutReminder stepFail at h
  by_cases hf : s.env.failures s.storeCalls <;>
    simp only [hf, if_true, if_false, Bool.false_eq_true, ite_true, ite_false] at h
  · cases h
  · by_cases hd : ({ s with storeCalls := s.storeCalls + 1 } : St).store.reminders.any
        (fun x => x.id = r.id) <;> simp only [hd, if_true, if_false] at h <;>
      · obtain ⟨-, h2⟩ := Prod.mk.injEq .. ▸ h
        subst h2
        exact ⟨rfl, rfl, rfl⟩

/-- C7 (spec-modelled handler): taking the snooze action on a pending
reminder persists a record whose status is snoozed, whose snoozeCount is the
previous value plus one, and whose snoozedUntil is now plus 15 minutes; the
mirror replaces exactly the matching entry; and the overlay's confirmation
states the next reminder time as now plus 15 minutes rendered by the time
formatter. -/
theorem snooze_action_spec (r : Reminder) (now : Int) (s : St) (u : Unit)
    (s' : St) (hpend : r.status = .pending)
    (h : applySnoozeAction r now s = (.ok u, s')) :
    (∃ r' : Reminder,
      r'.status = .snoozed ∧
      r'.snoozeCount = r.snoozeCount + 1 ∧
      r'.snoozedUntil = some (now + 15 * 60000) ∧
      r'.id = r.id ∧
      s'.mem.reminders = s.mem.reminders.map (fun x => if x.id = r.id then r' else x)) ∧
    s'.mem.appointments = s.mem.appointments ∧
    s'.mem.medications = s.mem.medications ∧
    getConfirmationMessage .snooze r.type now
      = "⏰ Snoozed! I\x27ll remind you again at " ++ formatTime (addMinutes now 15) := by
  unfold applySnoozeAction at h
  obtain ⟨h1, h2, h3⟩ := updateReminder_ok _ _ _ _ h
  refine ⟨⟨{ r with
      status := .snoozed
      snoozeCount := r.snoozeCount + 1
      snoozedUntil := some (addMinutes now 15) }, rfl, rfl, rfl, rfl, h1⟩, h2, h3, rfl⟩

theorem snooze_action_spec_witness :
    (c3Reminder1.status = .pending ∧
      applySnoozeAction c3Reminder1 0 c3St
        = (.ok (), (applySnoozeAction c3Reminder1 0 c3St).2)) ∧
    ((∃ r' : Reminder,
        r'.status = .snoozed ∧
        r'.snoozeCount = c3Reminder1.snoozeCount + 1 ∧
        r'.snoozedUntil = some ((0 : Int) + 15 * 60000) ∧
        r'.id = c3Reminder1.id ∧
        (applySnoozeAction c3Reminder1 0 c3St).2.mem.reminders
          = c3St.mem.reminders.map
              (fun x => if x.id = c3Reminder1.id then r' else x)) ∧
      (applySnoozeAction c3Reminder1 0 c3St).2.mem.appointments
        = c3St.mem.appointments ∧
      (applySnoozeAction c3Reminder1 0 c3St).2.mem.medications
        = c3St.mem.medications ∧
      getConfirmationMessage .snooze c3Reminder1.type 0
        = "⏰ Snoozed! I\x27ll remind you again at " ++ formatTime (addMinutes 0 15)) :=
  ⟨⟨rfl, rfl⟩,
    snooze_action_spec c3Reminder1 0 c3St ()
      (applySnoozeAction c3Reminder1 0 c3St).2 rfl rfl⟩

/-- Helper: a successful `storeAddReminder` appends the record to the store
and advances the request counter. -/
theorem storeAddReminder_ok (r : Reminder) (s s' : St)
    (h : storeAddReminder r s = (.ok (), s')) :
    s' = { s with
      storeCalls := s.storeCalls + 1
      store := { s.store with reminders := s.store.reminders ++ [r] } } := by
  unfold storeAddReminder stepFail at h
  by_cases hf : s.env.failures s.storeCalls <;>
    simp only [hf, if_true, if_false, Bool.false_eq_true, ite_true, ite_false] at h
  · cases h
  · by_cases hd : ({ s with storeCalls := s.storeCalls + 1 } : St).store.reminders.any
        (fun x => x.id = r.id) <;> simp only [hd, if_true, if_false] at h
    · cases h
    · obtain ⟨-, h2⟩ := Prod.mk.injEq .. ▸ h
      exact h2.symm

/-- Helper: a failed `storeAddReminder` only advances the request counter. -/
theorem storeAddReminder_error (r : Reminder) (s : St) (e : Unit) (s' : St)
    (h : storeAddReminder r s = (.error e, s')) :
    s' = { s with storeCalls := s.storeCalls + 1 } := by
  unfold storeAddReminder stepFail at h
  by_cases hf : s.env.failures s.storeCalls <;>
    simp only [hf, if_true, if_false, Bool.false_eq_true, ite_true, ite_false] at h
  · obtain ⟨-, h2⟩ := Prod.mk.injEq .. ▸ h
    exact h2.symm
  · by_cases hd : ({ s with storeCalls := s.storeCalls + 1 } : St).store.reminders.any
        (fun x => x.id = r.id) <;> simp only [hd, if_true, if_false] at h
    · obtain ⟨-, h2⟩ := Prod.mk.injEq .. ▸ h
      exact h2.symm
    · cases h

/-- Helper: a failed `storeAddAppointment` only advances the request
counter. -/
theorem storeAddAppointment_error (a : Appointment) (s : St) (e : Unit) (s' : St)
    (h : storeAddAppointment a s = (.error e, s')) :
    s' = { s with storeCalls := s.storeCalls + 1 } := by
  unfold storeAddAppointment stepFail at h
  by_cases hf : s.env.failures s.storeCalls <;>
    simp only [hf, if_true, if_false, Bool.false_eq_true, ite_true, ite_false] at h
  · obtain ⟨-, h2⟩ := Prod.mk.injEq .. ▸ h
    exact h2.symm
  · by_cases hd : ({ s with storeCalls := s.storeCalls + 1 } : St).store.appointments.any
        (fun x => x.id = a.id) <;> simp only [hd, if_true, if_false] at h
    · obtain ⟨-, h2⟩ := Prod.mk.injEq .. ▸ h
      exact h2.symm
    · cases h

/-- Helper: a failed `storeAddMedication` only advances the request
counter. -/
theorem storeAddMedication_error (m : Medication) (s : St) (e : Unit) (s' : St)
    (h : storeAddMedication m s = (.error e, s')) :
    s' = { s with storeCalls := s.storeCalls + 1 } := by
  unfold storeAddMedication stepFail at h
  by_cases hf : s.env.failures s.storeCalls <;>
    simp only [hf, if_true, if_false, Bool.false_eq_true, ite_true, ite_false] at h
  · obtain ⟨-, h2⟩ := Prod.mk.injEq .. ▸ h
    exact h2.symm
  · by_cases hd : ({ s with storeCalls := s.storeCalls + 1 } : St).store.medications.any
        (fun x => x.id = m.id) <;> simp only [hd, if_true, if_false] at h
    · obtain ⟨-, h2⟩ := Prod.mk.injEq .. ▸ h
      exact h2.symm
    · cases h

/-- Helper: a failed `storeRemoveMedication` only advances the request
counter. -/
theorem storeRemoveMedication_error (id : String) (s : St) (e : Unit) (s' : St)
    (h : storeRemoveMedication id s = (.error e, s')) :
    s' = { s with storeCalls := s.storeCalls + 1 } := by
  unfold storeRemoveMedication stepFail at h
  by_cases hf : s.env.failures s.storeCalls <;>
    simp only [hf, if_true, if_false, Bool.false_eq_true, ite_true, ite_false] at h
  · obtain ⟨-, h2⟩ := Prod.mk.injEq .. ▸ h
    exact h2.symm
  · cases h

/-- Helper: a failed `storeRemoveAppointment` only advances the request
counter. -/
theorem storeRemoveAppointment_error (id : String) (s : St) (e : Unit) (s' : St)
    (h : storeRemoveAppointment id s = (.error e, s')) :
    s' = { s with storeCalls := s.storeCalls + 1 } := by
  unfold storeRemoveAppointment stepFail at h
  by_cases hf : s.env.failures s.storeCalls <;>
    simp only [hf, if_true, if_false, Bool.false_eq_true, ite_true, ite_false] at h
  · obtain ⟨-, h2⟩ := Prod.mk.injEq .. ▸ h
    exact h2.symm
  · cases h

/-- Helper: a successful `updateAppointment` replaces the matching mirror
entry and leaves both reminder lists untouched. -/
theorem updateAppointment_ok (a : Appointment) (s : St) (u : Unit) (s' : St)
    (h : updateAppointment a s = (.ok u, s')) :
    s'.mem.appointments = s.mem.appointments.map (fun x => if x.id = a.id then a else x) ∧
    s'.mem.reminders = s.mem.reminders ∧
    s'.mem.medications = s.mem.medications ∧
    s'.store.reminders = s.store.reminders := by
  unfold updateAppointment storePutAppointment stepFail at h
  by_cases hf : s.env.failures s.storeCalls <;>
    simp only [hf, if_true, if_false, Bool.false_eq_true, ite_true, ite_false] at h
  · cases h
  · by_cases hd : ({ s with storeCalls := s.storeCalls + 1 } : St).store.appointments.any
        (fun x => x.id = a.id) <;> simp only [hd, if_true, if_false] at h <;>
      · obtain ⟨-, h2⟩ := Prod.mk.injEq .. ▸ h
        subst h2
        exact ⟨rfl, rfl, rfl, rfl⟩

/-- No reminder in the mirror or the store has status missed. -/
def NoMissedReminder (s : St) : Prop :=
  (∀ r ∈ s.mem.reminders, r.status ≠ .missed) ∧
  (∀ r ∈ s.store.reminders, r.status ≠ .missed)

theorem noMissed_addReminder (inp : ReminderInput) (now : Int) (s : St)
    (h : NoMissedReminder s) : NoMissedReminder (addReminder inp now s).2 := by
  rcases hr : addReminder inp now s with ⟨res, s'⟩
  cases res with
  | error e =>
      rw [addReminder_error inp now s e s' hr]
      exact h
  | ok r =>
      obtain ⟨hrr, hs'⟩ := addReminder_ok _ _ _ _ _ hr
      subst hs'
      constructor <;> intro x hx <;> rcases List.mem_append.mp hx with hx | hx
      · exact h.1 x hx
      · rw [List.mem_singleton.mp hx, hrr]
        simp [mkReminder]
      · exact h.2 x hx
      · rw [List.mem_singleton.mp hx, hrr]
        simp [mkReminder]

theorem noMissed_deleteReminder (id : String) (s : St)
    (h : NoMissedReminder s) : NoMissedReminder (deleteReminder id s).2 := by
  rcases hr : deleteReminder id s with ⟨res, s'⟩
  cases res with
  | error e =>
      rw [deleteReminder_error id s e s' hr]
      exact h
  | ok u =>
      rw [deleteReminder_ok id s u s' hr]
      exact ⟨fun x hx => h.1 x (List.mem_of_mem_filter hx),
        fun x hx => h.2 x (List.mem_of_mem_filter hx)⟩

theorem noMissed_deleteRemindersLoop (rs : List Reminder) (s : St)
    (h : NoMissedReminder s) : NoMissedReminder (deleteRemindersLoop rs s).2 := by
  induction rs generalizing s with
  | nil => exact h
  | cons r rest ih =>
      show NoMissedReminder (deleteRemindersLoop (r :: rest) s).2
      unfold deleteRemindersLoop
      rcases hr : deleteReminder r.id s with ⟨res, s1⟩
      have h1 : NoMissedReminder s1 := by
        have := noMissed_deleteReminder r.id s h
        rw [hr] at this
        exact this
      cases res with
      | error e => exact h1
      | ok u => exact ih s1 h1

theorem noMissed_updateAppointment (a : Appointment) (s : St)
    (h : NoMissedReminder s) : NoMissedReminder (updateAppointment a s).2 := by
  rcases hr : updateAppointment a s with ⟨res, s'⟩
  cases res with
  | error e =>
      rw [updateAppointment_error a s e s' hr]
      exact h
  | ok u =>
      obtain ⟨-, h2, -, h4⟩ := updateAppointment_ok a s u s' hr
      exact ⟨by rw [h2]; exact h.1, by rw [h4]; exact h.2⟩

theorem noMissed_addMedicationRemindersLoop (med : Medication) (now : Int)
    (times : List String) (s : St) (h : NoMissedReminder s) :
    NoMissedReminder (addMedicationRemindersLoop med now times s).2 := by
  induction times generalizing s with
  | nil => exact h
  | cons t rest ih =>
      unfold addMedicationRemindersLoop
      rcases hr : addReminder (medicationReminderInput med now t) now s with ⟨res, s1⟩
      have h1 : NoMissedReminder s1 := by
        have := noMissed_addReminder (medicationReminderInput med now t) now s h
        rw [hr] at this
        exact this
      cases res with
      | error e => exact h1
      | ok u => exact ih s1 h1

theorem noMissed_addMedication (inp : MedicationInput) (now : Int) (s : St)
    (h : NoMissedReminder s) : NoMissedReminder (addMedication inp now s).2 := by
  unfold addMedication nextId
  dsimp only
  rcases hr : storeAddMedication (mkMedication inp (idAt s.env s.idCalls) now)
      { s with idCalls := s.idCalls + 1 } with ⟨res, s2⟩
  cases res with
  | error e =>
      rw [storeAddMedication_error _ _ e s2 hr]
      exact h
  | ok u =>
      rw [storeAddMedication_ok _ _ _ hr]
      dsimp only
      split <;>
        rename_i r4 s4 heq <;>
        · have hstep := noMissed_addMedicationRemindersLoop
            (mkMedication inp (idAt s.env s.idCalls) now) now inp.times
            { store := { reminders := s.store.reminders
                         appointments := s.store.appointments
                         medications := s.store.medications
                           ++ [mkMedication inp (idAt s.env s.idCalls) now] }
              mem := { reminders := s.mem.reminders
                       appointments := s.mem.appointments
                       medications := s.mem.medications
                         ++ [mkMedication inp (idAt s.env s.idCalls) now] }
              env := s.env, idCalls := s.idCalls + 1, storeCalls := s.storeCalls + 1 } h
          rw [heq] at hstep
          exact hstep

theorem noMissed_addAppointment (inp : AppointmentInput) (now : Int) (s : St)
    (h : NoMissedReminder s) : NoMissedReminder (addAppointment inp now s).2 := by
  unfold addAppointment nextId
  dsimp only
  rcases hr : storeAddAppointment (mkAppointment inp (idAt s.env s.idCalls) now)
      { s with idCalls := s.idCalls + 1 } with ⟨res, s2⟩
  cases res with
  | error e =>
      rw [storeAddAppointment_error _ _ e s2 hr]
      exact h
  | ok u =>
      rw [storeAddAppointment_ok _ _ _ hr]
      dsimp only
      split <;>
        rename_i r4 s4 heq <;>
        · have hstep := noMissed_addReminder
            (appointmentReminderInput inp (mkAppointment inp (idAt s.env s.idCalls) now).id)
            now
            { store := { reminders := s.store.reminders
                         appointments := s.store.appointments
                           ++ [mkAppointment inp (idAt s.env s.idCalls) now]
                         medications := s.store.medications }
              mem := { reminders := s.mem.reminders
                       appointments := s.mem.appointments
                         ++ [mkAppointment inp (idAt s.env s.idCalls) now]
                       medications := s.mem.medications }
              env := s.env, idCalls := s.idCalls + 1, storeCalls := s.storeCalls + 1 } h
          rw [heq] at hstep
          exact hstep

theorem noMissed_deleteMedication (id : String) (s : St)
    (h : NoMissedReminder s) : NoMissedReminder (deleteMedication id s).2 := by
  unfold deleteMedication
  rcases hr : storeRemoveMedication id s with ⟨res, s2⟩
  cases res with
  | error e =>
      rw [storeRemoveMedication_error _ _ e s2 hr]
      exact h
  | ok u =>
      rw [storeRemoveMedication_ok _ _ _ hr]
      dsimp only
      exact noMissed_deleteRemindersLoop _ _ h

theorem noMissed_deleteAppointment (id : String) (s : St)
    (h : NoMissedReminder s) : NoMissedReminder (deleteAppointment id s).2 := by
  unfold deleteAppointment
  rcases hr : storeRemoveAppointment id s with ⟨res, s2⟩
  cases res with
  | error e =>
      rw [storeRemoveAppointment_error _ _ e s2 hr]
      exact h
  | ok u =>
      rw [storeRemoveAppointment_ok _ _ _ hr]
      dsimp only
      exact noMissed_deleteRemindersLoop _ _ h

theorem noMissed_storeAddReminder (r : Reminder) (s : St)
    (hstat : r.status ≠ .missed) (h : NoMissedReminder s) :
    NoMissedReminder (storeAddReminder r s).2 := by
  rcases hr : storeAddReminder r s with ⟨res, s'⟩
  cases res with
  | error e =>
      rw [storeAddReminder_error r s e s' hr]
      exact h
  | ok u =>
      cases u
      rw [storeAddReminder_ok r s s' hr]
      refine ⟨h.1, ?_⟩
      intro x hx
      rcases List.mem_append.mp hx with hx | hx
      · exact h.2 x hx
      · rw [List.mem_singleton.mp hx]
        exact hstat

/-- C8 (amended): no component-triggered operation ever gives any reminder —
in the mirror or in the store — status missed, and in particular marking an
appointment missed updates only that appointment: it leaves every reminder
untouched rather than reflecting the missed status into the related
reminder. -/
theorem no_component_sets_reminder_missed :
    (∀ (c : ComponentOp) (now : Int) (s : St),
      NoMissedReminder s → NoMissedReminder (runComponentOp c now s).2) ∧
    (∀ (a : Appointment) (s : St),
      (markAppointmentMissed a s).2.mem.reminders = s.mem.reminders ∧
      (markAppointmentMissed a s).2.store.reminders = s.store.reminders) := by
  constructor
  · intro c now s h
    cases c with
    | addMedicationForm inp => exact noMissed_addMedication inp now s h
    | addAppointmentForm inp => exact noMissed_addAppointment inp now s h
    | deleteMedicationButton id => exact noMissed_deleteMedication id s h
    | deleteReminderButton id => exact noMissed_deleteReminder id s h
    | deleteAppointmentButton id => exact noMissed_deleteAppointment id s h
    | toggleChecklist a itemId => exact noMissed_updateAppointment _ s h
    | markComplete a => exact noMissed_updateAppointment _ s h
    | markMissed a => exact noMissed_updateAppointment _ s h
    | seedTakenWrite id t =>
        exact noMissed_storeAddReminder _ s (fun hc => by simp [seedTakenReminder] at hc) h
    | seedSnoozedWrite id t =>
        exact noMissed_storeAddReminder _ s (fun hc => by simp [seedSnoozedReminder] at hc) h
    | reloadMirrors => exact ⟨h.2, h.2⟩
  · intro a s
    unfold markAppointmentMissed
    rcases hr : updateAppointment { a with status := .missed } s with ⟨res, s'⟩
    cases res with
    | error e =>
        rw [updateAppointment_error _ s e s' hr]
        exact ⟨rfl, rfl⟩
    | ok u =>
        obtain ⟨-, h2, -, h4⟩ := updateAppointment_ok _ s u s' hr
        exact ⟨h2, h4⟩

/-- C8 counterexample: marking an appointment missed does not update the
related reminder — in the resulting state the related reminder still has
status pending, not missed, while the appointment itself is missed. -/
theorem appointment_missed_reminder_counterexample :
    c3Reminder2.relatedId = some c3Appt.id ∧
    c3Reminder2.status = .pending ∧
    (markAppointmentMissed c3Appt c3St).1 = .ok () ∧
    (markAppointmentMissed c3Appt c3St).2.mem.appointments.map Appointment.status
      = [.missed] ∧
    (markAppointmentMissed c3Appt c3St).2.mem.reminders = c3St.mem.reminders ∧
    c3Reminder2 ∈ (markAppointmentMissed c3Appt c3St).2.mem.reminders ∧
    (∀ r ∈ (markAppointmentMissed c3Appt c3St).2.mem.reminders,
      r.status ≠ ReminderStatus.missed) :=
  ⟨rfl, rfl, rfl, by decide, by decide, by decide, by decide⟩

theorem no_component_sets_reminder_missed_witness :
    NoMissedReminder c3St ∧
    NoMissedReminder (runComponentOp (.markMissed c3Appt) 0 c3St).2 :=
  ⟨⟨by decide, by decide⟩,
    no_component_sets_reminder_missed.1 (.markMissed c3Appt) 0 c3St
      ⟨by decide, by decide⟩⟩

/-! ## Identifier uniqueness (C9) -/

/-- Every collection, in store and mirror, has duplicate-free ids, and every
mirror id also exists in the store (the mirror may lag behind the store but
never invents records). -/
def UniqueIds (s : St) : Prop :=
  (s.store.reminders.map Reminder.id).Nodup ∧
  (s.store.appointments.map Appointment.id).Nodup ∧
  (s.store.medications.map Medication.id).Nodup ∧
  (s.mem.reminders.map Reminder.id).Nodup ∧
  (s.mem.appointments.map Appointment.id).Nodup ∧
  (s.mem.medications.map Medication.id).Nodup ∧
  (∀ i ∈ s.mem.reminders.map Reminder.id, i ∈ s.store.reminders.map Reminder.id) ∧
  (∀ i ∈ s.mem.appointments.map Appointment.id, i ∈ s.store.appointments.map Appointment.id) ∧
  (∀ i ∈ s.mem.medications.map Medication.id, i ∈ s.store.medications.map Medication.id)

section IdLemmas

variable {α : Type} (f : α → String)

theorem ids_nodup_append_fresh (l : List α) (a : α)
    (hnd : (l.map f).Nodup) (hfresh : f a ∉ l.map f) :
    ((l ++ [a]).map f).Nodup := by
  rw [List.map_append]
  simp [List.nodup_append, hnd, hfresh]

theorem ids_map_replace (l : List α) (a : α) :
    ((l.map (fun x => if f x = f a then a else x)).map f) = l.map f := by
  rw [List.map_map]
  apply List.map_congr_left
  intro x _
  by_cases hx : f x = f a <;> simp [hx]

theorem ids_nodup_filter (l : List α) (p : α → Bool)
    (hnd : (l.map f).Nodup) : ((l.filter p).map f).Nodup :=
  hnd.sublist ((l.filter_sublist).map f)

theorem any_id_eq_false {l : List α} {b : String}
    (h : (l.any (fun x => f x = b)) = false) : b ∉ l.map f := by
  intro hmem
  obtain ⟨x, hx, hxid⟩ := List.mem_map.mp hmem
  rw [List.any_eq_false] at h
  exact h x hx (by simp [hxid])

end IdLemmas

theorem uniqueIds_addReminder (inp : ReminderInput) (now : Int) (s : St)
    (h : UniqueIds s) : UniqueIds (addReminder inp now s).2 := by
  unfold addReminder nextId storeAddReminder stepFail
  dsimp only
  by_cases hf : s.env.failures s.storeCalls <;>
    simp only [hf, if_true, if_false, Bool.false_eq_true, ite_true, ite_false]
  · exact h
  · by_cases hd : s.store.reminders.any
        (fun x => x.id = (mkReminder inp (idAt s.env s.idCalls) now).id) <;>
      simp only [hd, if_true, if_false, Bool.false_eq_true, ite_true, ite_false]
    · exact h
    · have hd' : (s.store.reminders.any
          (fun x => x.id = (mkReminder inp (idAt s.env s.idCalls) now).id)) = false := by
        simpa using hd
      have hfresh : (mkReminder inp (idAt s.env s.idCalls) now).id
          ∉ s.store.reminders.map Reminder.id := any_id_eq_false Reminder.id hd'
      obtain ⟨h1, h2, h3, h4, h5, h6, h7, h8, h9⟩ := h
      refine ⟨ids_nodup_append_fresh Reminder.id _ _ h1 hfresh, h2, h3,
        ids_nodup_append_fresh Reminder.id _ _ h4 (fun hm => hfresh (h7 _ hm)),
        h5, h6, ?_, h8, h9⟩
      intro i hi
      rw [List.map_append] at hi ⊢
      rcases List.mem_append.mp hi with hi | hi
      · exact List.mem_append.mpr (Or.inl (h7 i hi))
      · exact List.mem_append.mpr (Or.inr hi)

theorem uniqueIds_updateReminder (r : Reminder) (s : St)
    (h : UniqueIds s) : UniqueIds (updateReminder r s).2 := by
  unfold updateReminder storePutReminder stepFail
  dsimp only
  by_cases hf : s.env.failures s.storeCalls <;>
    simp only [hf, if_true, if_false, Bool.false_eq_true, ite_true, ite_false]
  · exact h
  · obtain ⟨h1, h2, h3, h4, h5, h6, h7, h8, h9⟩ := h
    by_cases hd : s.store.reminders.any (fun x => x.id = r.id) <;>
      simp only [hd, if_true, if_false, Bool.false_eq_true, ite_true, ite_false]
    · refine ⟨by rw [ids_map_replace]; exact h1, h2, h3,
        by rw [ids_map_replace]; exact h4, h5, h6, ?_, h8, h9⟩
      intro i hi
      rw [ids_map_replace] at hi ⊢
      exact h7 i hi
    · have hd' : (s.store.reminders.any (fun x => x.id = r.id)) = false := by
        simpa using hd
      have hfresh : r.id ∉ s.store.reminders.map Reminder.id :=
        any_id_eq_false Reminder.id hd'
      refine ⟨ids_nodup_append_fresh Reminder.id _ _ h1 hfresh, h2, h3,
        by rw [ids_map_replace]; exact h4, h5, h6, ?_, h8, h9⟩
      intro i hi
      rw [ids_map_replace] at hi
      rw [List.map_append]
      exact List.mem_append.mpr (Or.inl (h7 i hi))

theorem uniqueIds_deleteReminder (id : String) (s : St)
    (h : UniqueIds s) : UniqueIds (deleteReminder id s).2 := by
  unfold deleteReminder storeRemoveReminder stepFail
  dsimp only
  by_cases hf : s.env.failures s.storeCalls <;>
    simp only [hf, if_true, if_false, Bool.false_eq_true, ite_true, ite_false]
  · exact h
  · obtain ⟨h1, h2, h3, h4, h5, h6, h7, h8, h9⟩ := h
    refine ⟨ids_nodup_filter Reminder.id _ _ h1, h2, h3,
      ids_nodup_filter Reminder.id _ _ h4, h5, h6, ?_, h8, h9⟩
    intro i hi
    obtain ⟨x, hx, hxid⟩ := List.mem_map.mp hi
    have hxl := List.mem_filter.mp hx
    have hxs : x.id ∈ s.store.reminders.map Reminder.id :=
      h7 _ (List.mem_map.mpr ⟨x, hxl.1, rfl⟩)
    obtain ⟨y, hy, hyid⟩ := List.mem_map.mp hxs
    refine List.mem_map.mpr ⟨y, List.mem_filter.mpr ⟨hy, ?_⟩, by rw [hyid, hxid]⟩
    rw [hyid]
    exact hxl.2

theorem uniqueIds_updateAppointment (a : Appointment) (s : St)
    (h : UniqueIds s) : UniqueIds (updateAppointment a s).2 := by
  unfold updateAppointment storePutAppointment stepFail
  dsimp only
  by_cases hf : s.env.failures s.storeCalls <;>
    simp only [hf, if_true, if_false, Bool.false_eq_true, ite_true, ite_false]
  · exact h
  · obtain ⟨h1, h2, h3, h4, h5, h6, h7, h8, h9⟩ := h
    by_cases hd : s.store.appointments.any (fun x => x.id = a.id) <;>
      simp only [hd, if_true, if_false, Bool.false_eq_true, ite_true, ite_false]
    · refine ⟨h1, by rw [ids_map_replace]; exact h2, h3, h4,
        by rw [ids_map_replace]; exact h5, h6, h7, ?_, h9⟩
      intro i hi
      rw [ids_map_replace] at hi ⊢
      exact h8 i hi
    · have hd' : (s.store.appointments.any (fun x => x.id = a.id)) = false := by
        simpa using hd
      have hfresh : a.id ∉ s.store.appointments.map Appointment.id :=
        any_id_eq_false Appointment.id hd'
      refine ⟨h1, ids_nodup_append_fresh Appointment.id _ _ h2 hfresh, h3, h4,
        by rw [ids_map_replace]; exact h5, h6, h7, ?_, h9⟩
      intro i hi
      rw [ids_map_replace] at hi
      rw [List.map_append]
      exact List.mem_append.mpr (Or.inl (h8 i hi))

theorem uniqueIds_updateMedication (m : Medication) (s : St)
    (h : UniqueIds s) : UniqueIds (updateMedication m s).2 := by
  unfold updateMedication storePutMedication stepFail
  dsimp only
  by_cases hf : s.env.failures s.storeCalls <;>
    simp only [hf, if_true, if_false, Bool.false_eq_true, ite_true, ite_false]
  · exact h
  · obtain ⟨h1, h2, h3, h4, h5, h6, h7, h8, h9⟩ := h
    by_cases hd : s.store.medications.any (fun x => x.id = m.id) <;>
      simp only [hd, if_true, if_false, Bool.false_eq_true, ite_true, ite_false]
    · refine ⟨h1, h2, by rw [ids_map_replace]; exact h3, h4, h5,
        by rw [ids_map_replace]; exact h6, h7, h8, ?_⟩
      intro i hi
      rw [ids_map_replace] at hi ⊢
      exact h9 i hi
    · have hd' : (s.store.medications.any (fun x => x.id = m.id)) = false := by
        simpa using hd
      have hfresh : m.id ∉ s.store.medications.map Medication.id :=
        any_id_eq_false Medication.id hd'
      refine ⟨h1, h2, ids_nodup_append_fresh Medication.id _ _ h3 hfresh, h4, h5,
        by rw [ids_map_replace]; exact h6, h7, h8, ?_⟩
      intro i hi
      rw [ids_map_replace] at hi
      rw [List.map_append]
      exact List.mem_append.mpr (Or.inl (h9 i hi))

theorem ids_mem_filter_ne {α : Type} (f : α → String) (l₁ l₂ : List α) (b : String)
    (hsub : ∀ i ∈ l₁.map f, i ∈ l₂.map f) :
    ∀ i ∈ (l₁.filter (fun x => decide (f x ≠ b))).map f,
      i ∈ (l₂.filter (fun x => decide (f x ≠ b))).map f := by
  intro i hi
  obtain ⟨x, hx, hxid⟩ := List.mem_map.mp hi
  have hxf := List.mem_filter.mp hx
  obtain ⟨y, hy, hyid⟩ := List.mem_map.mp (hsub _ (List.mem_map.mpr ⟨x, hxf.1, rfl⟩))
  refine List.mem_map.mpr ⟨y, List.mem_filter.mpr ⟨hy, ?_⟩, by rw [hyid, hxid]⟩
  rw [hyid]
  exact hxf.2

theorem uniqueIds_deleteRemindersLoop (rs : List Reminder) (s : St)
    (h : UniqueIds s) : UniqueIds (deleteRemindersLoop rs s).2 := by
  induction rs generalizing s with
  | nil => exact h
  | cons r rest ih =>
      unfold deleteRemindersLoop
      rcases hr : deleteReminder r.id s with ⟨res, s1⟩
      have h1 : UniqueIds s1 := by
        have := uniqueIds_deleteReminder r.id s h
        rw [hr] at this
        exact this
      cases res with
      | error e => exact h1
      | ok u => exact ih s1 h1

theorem uniqueIds_deleteMedication (id : String) (s : St)
    (h : UniqueIds s) : UniqueIds (deleteMedication id s).2 := by
  unfold deleteMedication storeRemoveMedication stepFail
  dsimp only
  by_cases hf : s.env.failures s.storeCalls <;>
    simp only [hf, if_true, if_false, Bool.false_eq_true, ite_true, ite_false]
  · exact h
  · obtain ⟨h1, h2, h3, h4, h5, h6, h7, h8, h9⟩ := h
    apply uniqueIds_deleteRemindersLoop
    exact ⟨h1, h2, ids_nodup_filter Medication.id _ _ h3, h4, h5,
      ids_nodup_filter Medication.id _ _ h6, h7, h8,
      ids_mem_filter_ne Medication.id _ _ id h9⟩

theorem uniqueIds_deleteAppointment (id : String) (s : St)
    (h : UniqueIds s) : UniqueIds (deleteAppointment id s).2 := by
  unfold deleteAppointment storeRemoveAppointment stepFail
  dsimp only
  by_cases hf : s.env.failures s.storeCalls <;>
    simp only [hf, if_true, if_false, Bool.false_eq_true, ite_true, ite_false]
  · exact h
  · obtain ⟨h1, h2, h3, h4, h5, h6, h7, h8, h9⟩ := h
    apply uniqueIds_deleteRemindersLoop
    exact ⟨h1, ids_nodup_filter Appointment.id _ _ h2, h3, h4,
      ids_nodup_filter Appointment.id _ _ h5, h6, h7,
      ids_mem_filter_ne Appointment.id _ _ id h8, h9⟩

theorem uniqueIds_addMedicationRemindersLoop (med : Medication) (now : Int)
    (times : List String) (s : St) (h : UniqueIds s) :
    UniqueIds (addMedicationRemindersLoop med now times s).2 := by
  induction times generalizing s with
  | nil => exact h
  | cons t rest ih =>
      unfold addMedicationRemindersLoop
      rcases hr : addReminder (medicationReminderInput med now t) now s with ⟨res, s1⟩
      have h1 : UniqueIds s1 := by
        have := uniqueIds_addReminder (medicationReminderInput med now t) now s h
        rw [hr] at this
        exact this
      cases res with
      | error e => exact h1
      | ok u => exact ih s1 h1

theorem uniqueIds_addMedication (inp : MedicationInput) (now : Int) (s : St)
    (h : UniqueIds s) : UniqueIds (addMedication inp now s).2 := by
  unfold addMedication nextId storeAddMedication stepFail
  dsimp only
  by_cases hf : s.env.failures s.storeCalls <;>
    simp only [hf, if_true, if_false, Bool.false_eq_true, ite_true, ite_false]
  · exact h
  · by_cases hd : s.store.medications.any
        (fun x => x.id = (mkMedication inp (idAt s.env s.idCalls) now).id) <;>
      simp only [hd, if_true, if_false, Bool.false_eq_true, ite_true, ite_false]
    · exact h
    · have hd' : (s.store.medications.any
          (fun x => x.id = (mkMedication inp (idAt s.env s.idCalls) now).id)) = false := by
        simpa using hd
      have hfresh : (mkMedication inp (idAt s.env s.idCalls) now).id
          ∉ s.store.medications.map Medication.id := any_id_eq_false Medication.id hd'
      obtain ⟨h1, h2, h3, h4, h5, h6, h7, h8, h9⟩ := h
      have hS : UniqueIds
          { store := { reminders := s.store.reminders
                       appointments := s.store.appointments
                       medications := s.store.medications
                         ++ [mkMedication inp (idAt s.env s.idCalls) now] }
            mem := { reminders := s.mem.reminders
                     appointments := s.mem.appointments
                     medications := s.mem.medications
                       ++ [mkMedication inp (idAt s.env s.idCalls) now] }
            env := s.env, idCalls := s.idCalls + 1, storeCalls := s.storeCalls + 1 } := by
        refine ⟨h1, h2, ids_nodup_append_fresh Medication.id _ _ h3 hfresh, h4, h5,
          ids_nodup_append_fresh Medication.id _ _ h6 (fun hm => hfresh (h9 _ hm)),
          h7, h8, ?_⟩
        intro i hi
        rw [List.map_append] at hi ⊢
        rcases List.mem_append.mp hi with hi | hi
        · exact List.mem_append.mpr (Or.inl (h9 i hi))
        · exact List.mem_append.mpr (Or.inr hi)
      split <;>
        rename_i r4 s4 heq <;>
        · have hstep := uniqueIds_addMedicationRemindersLoop
            (mkMedication inp (idAt s.env s.idCalls) now) now inp.times _ hS
          rw [heq] at hstep
          exact hstep

theorem uniqueIds_addAppointment (inp : AppointmentInput) (now : Int) (s : St)
    (h : UniqueIds s) : UniqueIds (addAppointment inp now s).2 := by
  unfold addAppointment nextId storeAddAppointment stepFail
  dsimp only
  by_cases hf : s.env.failures s.storeCalls <;>
    simp only [hf, if_true, if_false, Bool.false_eq_true, ite_true, ite_false]
  · exact h
  · by_cases hd : s.store.appointments.any
        (fun x => x.id = (mkAppointment inp (idAt s.env s.idCalls) now).id) <;>
      simp only [hd, if_true, if_false, Bool.false_eq_true, ite_true, ite_false]
    · exact h
    · have hd' : (s.store.appointments.any
          (fun x => x.id = (mkAppointment inp (idAt s.env s.idCalls) now).id)) = false := by
        simpa using hd
      have hfresh : (mkAppointment inp (idAt s.env s.idCalls) now).id
          ∉ s.store.appointments.map Appointment.id := any_id_eq_false Appointment.id hd'
      obtain ⟨h1, h2, h3, h4, h5, h6, h7, h8, h9⟩ := h
      have hS : UniqueIds
          { store := { reminders := s.store.reminders
                       appointments := s.store.appointments
                         ++ [mkAppointment inp (idAt s.env s.idCalls) now]
                       medications := s.store.medications }
            mem := { reminders := s.mem.reminders
                     appointments := s.mem.appointments
                       ++ [mkAppointment inp (idAt s.env s.idCalls) now]
                     medications := s.mem.medications }
            env := s.env, idCalls := s.idCalls + 1, storeCalls := s.storeCalls + 1 } := by
        refine ⟨h1, ids_nodup_append_fresh Appointment.id _ _ h2 hfresh, h3, h4,
          ids_nodup_append_fresh Appointment.id _ _ h5 (fun hm => hfresh (h8 _ hm)),
          h6, h7, ?_, h9⟩
        intro i hi
        rw [List.map_append] at hi ⊢
        rcases List.mem_append.mp hi with hi | hi
        · exact List.mem_append.mpr (Or.inl (h8 i hi))
        · exact List.mem_append.mpr (Or.inr hi)
      split <;>
        rename_i r4 s4 heq <;>
        · have hstep := uniqueIds_addReminder
            (appointmentReminderInput inp (mkAppointment inp (idAt s.env s.idCalls) now).id)
            now _ hS
          rw [heq] at hstep
          exact hstep

theorem uniqueIds_storeAddReminder (r : Reminder) (s : St)
    (h : UniqueIds s) : UniqueIds (storeAddReminder r s).2 := by
  unfold storeAddReminder stepFail
  dsimp only
  by_cases hf : s.env.failures s.storeCalls <;>
    simp only [hf, if_true, if_false, Bool.false_eq_true, ite_true, ite_false]
  · exact h
  · by_cases hd : s.store.reminders.any (fun x => x.id = r.id) <;>
      simp only [hd, if_true, if_false, Bool.false_eq_true, ite_true, ite_false]
    · exact h
    · have hd' : (s.store.reminders.any (fun x => x.id = r.id)) = false := by
        simpa using hd
      have hfresh : r.id ∉ s.store.reminders.map Reminder.id :=
        any_id_eq_false Reminder.id hd'
      obtain ⟨h1, h2, h3, h4, h5, h6, h7, h8, h9⟩ := h
      refine ⟨ids_nodup_append_fresh Reminder.id _ _ h1 hfresh, h2, h3, h4, h5, h6,
        ?_, h8, h9⟩
      intro i hi
      rw [List.map_append]
      exact List.mem_append.mpr (Or.inl (h7 i hi))

/-- Helper: every reachable state satisfies the full id invariant. -/
theorem reachable_uniqueIds {s : St} (h : Reachable s) : UniqueIds s := by
  induction h with
  | init env =>
      exact ⟨List.nodup_nil, List.nodup_nil, List.nodup_nil, List.nodup_nil,
        List.nodup_nil, List.nodup_nil,
        fun i hi => by simp [DB.empty] at hi, fun i hi => by simp [DB.empty] at hi,
        fun i hi => by simp [DB.empty] at hi⟩
  | step op now hs ih =>
      cases op with
      | opAddReminder inp => exact uniqueIds_addReminder inp now _ ih
      | opUpdateReminder r => exact uniqueIds_updateReminder r _ ih
      | opDeleteReminder id => exact uniqueIds_deleteReminder id _ ih
      | opAddAppointment inp => exact uniqueIds_addAppointment inp now _ ih
      | opUpdateAppointment a => exact uniqueIds_updateAppointment a _ ih
      | opDeleteAppointment id => exact uniqueIds_deleteAppointment id _ ih
      | opAddMedication inp => exact uniqueIds_addMedication inp now _ ih
      | opUpdateMedication m => exact uniqueIds_updateMedication m _ ih
      | opDeleteMedication id => exact uniqueIds_deleteMedication id _ ih
  | seedWrite id t hs ih => exact uniqueIds_storeAddReminder _ _ ih
  | seedWriteSnoozed id t hs ih => exact uniqueIds_storeAddReminder _ _ ih
  | reload hs ih =>
      exact ⟨ih.1, ih.2.1, ih.2.2.1, ih.1, ih.2.1, ih.2.2.1,
        fun i hi => hi, fun i hi => hi, fun i hi => hi⟩

/-- C9 (amended): in every reachable state no two records of the same
collection — in the mirror or in the store — share an identifier; this is
enforced by the store's duplicate-key rejection, not by generateId, whose
outputs collide when two invocations observe the same millisecond timestamp
and random suffix. -/
theorem identifiers_unique_per_collection (s : St) (h : Reachable s) :
    (s.mem.reminders.map Reminder.id).Nodup ∧
    (s.mem.appointments.map Appointment.id).Nodup ∧
    (s.mem.medications.map Medication.id).Nodup ∧
    (s.store.reminders.map Reminder.id).Nodup ∧
    (s.store.appointments.map Appointment.id).Nodup ∧
    (s.store.medications.map Medication.id).Nodup := by
  obtain ⟨h1, h2, h3, h4, h5, h6, -, -, -⟩ := reachable_uniqueIds h
  exact ⟨h4, h5, h6, h1, h2, h3⟩

/-- Environment in which every `generateId` call observes the same
millisecond timestamp and the same random suffix. -/
def collidingEnv : Env :=
  { timestamps := fun _ => 1700000000000
    rands := fun _ => "q1w2e3r4t"
    failures := fun _ => false }

/-- C9 counterexample: two distinct generateId invocations (call indices 0
and 1) return the same string when they fall in the same millisecond with
the same random suffix — distinct invocations do not always return distinct
strings. -/
theorem generateId_collision_counterexample :
    (0 : Nat) ≠ 1 ∧
    idAt collidingEnv 0 = idAt collidingEnv 1 ∧
    idAt collidingEnv 0 = "1700000000000-q1w2e3r4t" :=
  ⟨by decide, rfl, rfl⟩

theorem identifiers_unique_per_collection_witness :
    (((runOp (.opAddMedication witnessMedInput) 0
        ⟨DB.empty, DB.empty, witnessEnv, 0, 0⟩).2.mem.reminders.map Reminder.id).Nodup ∧
      ((runOp (.opAddMedication witnessMedInput) 0
        ⟨DB.empty, DB.empty, witnessEnv, 0, 0⟩).2.mem.appointments.map Appointment.id).Nodup ∧
      ((runOp (.opAddMedication witnessMedInput) 0
        ⟨DB.empty, DB.empty, witnessEnv, 0, 0⟩).2.mem.medications.map Medication.id).Nodup ∧
      ((runOp (.opAddMedication witnessMedInput) 0
        ⟨DB.empty, DB.empty, witnessEnv, 0, 0⟩).2.store.reminders.map Reminder.id).Nodup ∧
      ((runOp (.opAddMedication witnessMedInput) 0
        ⟨DB.empty, DB.empty, witnessEnv, 0, 0⟩).2.store.appointments.map Appointment.id).Nodup ∧
      ((runOp (.opAddMedication witnessMedInput) 0
        ⟨DB.empty, DB.empty, witnessEnv, 0, 0⟩).2.store.medications.map Medication.id).Nodup) :=
  identifiers_unique_per_collection _
    (Reachable.step (.opAddMedication witnessMedInput) 0 (Reachable.init witnessEnv))
